import Mathlib

/-!
Verification of core behaviours of the reindexer engine: the arithmetic
expression evaluator, the Query model with its binary codec and builder
invariants, the payload value reference counting, the result pool cap in the
C binding, and the full-text WordTypo record size.

Each C++ component is shallowly embedded: machine integers become Nat/Int,
doubles become Rat (the claims only exercise exact arithmetic), exceptions
become Except, and the token/byte streams become lists of atoms.
-/

unseal Rat.sub Rat.mul Rat.add Rat.inv

namespace Reindexer

/-- Error kinds of the closed taxonomy (tools/errors.h is not among the
provided sources; the kinds are those used by the provided sources and listed
in the spec). -/
inductive ErrKind where
  | errOK
  | errParseSQL
  | errParseJson
  | errParseDSL
  | errParseBin
  | errParams
  | errLogic
  | errNotValid
  | errConflict
  | errStateInvalidated
  | errTagsMissmatch
  | errNotFound
  | errTimeout
  | errCanceled
  | errTooManyParallelQueries
  deriving DecidableEq, Repr

/-- An Error value: kind plus formatted message (tools/errors.h). -/
structure Err where
  kind : ErrKind
  msg : String
  deriving DecidableEq, Repr

/-- Scalar type tags of Variant values (core/keyvalue: KeyValueType). -/
inductive RKeyValueType where
  | kInt
  | kInt64
  | kDouble
  | kBool
  | kString
  | kNull
  | kTuple
  | kUuid
  | kUndefined
  deriving DecidableEq, Repr

/-- A Variant value (core/keyvalue/variant.h, modelled at value level:
ownership/hold state is not observable in the claims). Doubles are embedded
as rationals; the verified claims only exercise exact arithmetic. -/
inductive RVariant where
  | vint (i : Int)
  | vint64 (i : Int)
  | vdouble (q : Rat)
  | vbool (b : Bool)
  | vstring (s : String)
  | vnull
  | vtuple (elems : List RVariant)

mutual

/-- Structural equality of variants (Variant::operator== at value level). -/
def RVariant.beq : RVariant → RVariant → Bool
  | .vint a, .vint b => a = b
  | .vint64 a, .vint64 b => a = b
  | .vdouble a, .vdouble b => a = b
  | .vbool a, .vbool b => a = b
  | .vstring a, .vstring b => a = b
  | .vnull, .vnull => true
  | .vtuple a, .vtuple b => RVariant.beqList a b
  | _, _ => false

def RVariant.beqList : List RVariant → List RVariant → Bool
  | [], [] => true
  | a :: as, b :: bs => RVariant.beq a b && RVariant.beqList as bs
  | _, _ => false

end

mutual

theorem RVariant.beq_iff : ∀ a b : RVariant, RVariant.beq a b = true ↔ a = b
  | .vint a, .vint b => by simp [RVariant.beq]
  | .vint a, .vint64 b => by simp [RVariant.beq]
  | .vint a, .vdouble b => by simp [RVariant.beq]
  | .vint a, .vbool b => by simp [RVariant.beq]
  | .vint a, .vstring b => by simp [RVariant.beq]
  | .vint a, .vnull => by simp [RVariant.beq]
  | .vint a, .vtuple b => by simp [RVariant.beq]
  | .vint64 a, .vint b => by simp [RVariant.beq]
  | .vint64 a, .vint64 b => by simp [RVariant.beq]
  | .vint64 a, .vdouble b => by simp [RVariant.beq]
  | .vint64 a, .vbool b => by simp [RVariant.beq]
  | .vint64 a, .vstring b => by simp [RVariant.beq]
  | .vint64 a, .vnull => by simp [RVariant.beq]
  | .vint64 a, .vtuple b => by simp [RVariant.beq]
  | .vdouble a, .vint b => by simp [RVariant.beq]
  | .vdouble a, .vint64 b => by simp [RVariant.beq]
  | .vdouble a, .vdouble b => by simp [RVariant.beq]
  | .vdouble a, .vbool b => by simp [RVariant.beq]
  | .vdouble a, .vstring b => by simp [RVariant.beq]
  | .vdouble a, .vnull => by simp [RVariant.beq]
  | .vdouble a, .vtuple b => by simp [RVariant.beq]
  | .vbool a, .vint b => by simp [RVariant.beq]
  | .vbool a, .vint64 b => by simp [RVariant.beq]
  | .vbool a, .vdouble b => by simp [RVariant.beq]
  | .vbool a, .vbool b => by simp [RVariant.beq]
  | .vbool a, .vstring b => by simp [RVariant.beq]
  | .vbool a, .vnull => by simp [RVariant.beq]
  | .vbool a, .vtuple b => by simp [RVariant.beq]
  | .vstring a, .vint b => by simp [RVariant.beq]
  | .vstring a, .vint64 b => by simp [RVariant.beq]
  | .vstring a, .vdouble b => by simp [RVariant.beq]
  | .vstring a, .vbool b => by simp [RVariant.beq]
  | .vstring a, .vstring b => by simp [RVariant.beq]
  | .vstring a, .vnull => by simp [RVariant.beq]
  | .vstring a, .vtuple b => by simp [RVariant.beq]
  | .vnull, .vint b => by simp [RVariant.beq]
  | .vnull, .vint64 b => by simp [RVariant.beq]
  | .vnull, .vdouble b => by simp [RVariant.beq]
  | .vnull, .vbool b => by simp [RVariant.beq]
  | .vnull, .vstring b => by simp [RVariant.beq]
  | .vnull, .vnull => by simp [RVariant.beq]
  | .vnull, .vtuple b => by simp [RVariant.beq]
  | .vtuple a, .vint b => by simp [RVariant.beq]
  | .vtuple a, .vint64 b => by simp [RVariant.beq]
  | .vtuple a, .vdouble b => by simp [RVariant.beq]
  | .vtuple a, .vbool b => by simp [RVariant.beq]
  | .vtuple a, .vstring b => by simp [RVariant.beq]
  | .vtuple a, .vnull => by simp [RVariant.beq]
  | .vtuple a, .vtuple b => by
    simp only [RVariant.beq, RVariant.vtuple.injEq]
    exact RVariant.beqList_iff a b

theorem RVariant.beqList_iff : ∀ a b : List RVariant, RVariant.beqList a b = true ↔ a = b
  | [], [] => by simp [RVariant.beqList]
  | [], _ :: _ => by simp [RVariant.beqList]
  | _ :: _, [] => by simp [RVariant.beqList]
  | a :: as, b :: bs => by
    simp only [RVariant.beqList, Bool.and_eq_true, List.cons.injEq]
    exact and_congr (RVariant.beq_iff a b) (RVariant.beqList_iff as bs)

end

instance : DecidableEq RVariant := fun a b => decidable_of_iff _ (RVariant.beq_iff a b)

/-- Type tag of a variant (Variant::Type). -/
def RVariant.vtype : RVariant → RKeyValueType
  | .vint _ => .kInt
  | .vint64 _ => .kInt64
  | .vdouble _ => .kDouble
  | .vbool _ => .kBool
  | .vstring _ => .kString
  | .vnull => .kNull
  | .vtuple _ => .kTuple

/-- Variant::As<double> on the numeric variants the evaluator reads
(non-numeric cases are unreachable in the modelled paths). -/
def RVariant.asDouble : RVariant → Rat
  | .vint i => (i : Rat)
  | .vint64 i => (i : Rat)
  | .vdouble q => q
  | .vbool b => if b then 1 else 0
  | _ => 0

/-- VariantArray: a vector of variants plus the array marker bit. -/
structure VArr where
  items : List RVariant
  isArrayValue : Bool
  deriving DecidableEq

/-- VariantArray::MarkArray. -/
def VArr.markArray (a : VArr) (v : Bool := true) : VArr := { a with isArrayValue := v }

/-! ## Expression evaluator (core/query/expressionevaluator.cc)

The tokenizer (estl/tokenizer.h) is not among the provided sources; tokens
are modelled as a list of already-lexed tokens, each either a number (the
strtod result), a name, or a symbol. -/

/-- One lexed token. -/
inductive Tok where
  | num (q : Rat)
  | name (s : String)
  | sym (s : String)
  deriving DecidableEq, Repr

/-- token2kv on an array-content token (estl/tokenizer.h is absent; a number
token becomes a double variant, any other token keeps its text as a string,
matching how SQL literals are captured). -/
def token2kv : Tok → RVariant
  | .num q => .vdouble q
  | .name s => .vstring s
  | .sym s => .vstring s

/-- ExpressionEvaluator::State. -/
inductive EvalState where
  | stateNone
  | stateSumAndSubtract
  | stateMultiplyAndDivide
  | stateArrayConcat
  deriving DecidableEq, Repr

/-- Description of an indexed payload field, abstracting PayloadType::Field
plus ConstPayload::Get (the payload headers are not among the provided
sources): its scalar type, the array flag and the stored values. -/
structure FieldInfo where
  isArray : Bool
  ktype : RKeyValueType
  values : List RVariant

/-- The evaluation environment: the indexed-field lookup
(PayloadType::FieldByName + ConstPayload::Get), the JSON-path lookup
(ConstPayload::GetByJsonPath) and the select-function executor
(FunctionExecutor::Execute coerced to double). -/
structure EvalEnv where
  indexed : String → Option FieldInfo
  byJsonPath : String → List RVariant
  execFunction : String → Rat

/-- The mutable evaluator context: remaining tokens, the array accumulator
arrayValues_ and the state_ machine register. -/
structure ECtx where
  toks : List Tok
  arr : List RVariant
  state : EvalState
  deriving DecidableEq

def kWrongFieldTypeError (s : String) : String :=
  "Only integral type non-array fields are supported in arithmetical expressions: " ++ s

/-- Message of the division-by-zero error thrown by
ExpressionEvaluator::performMultiplicationAndDivision. -/
def kDivisionByZeroMsg : String := "Division by zero!"

/-- ExpressionEvaluator::captureArrayContent: the loop body after the opening
bracket has been consumed. -/
def captureLoop : List Tok → List RVariant → Except Err (List Tok × List RVariant)
  | [], _ =>
    .error ⟨.errParseSQL, "Expected field value, but found end of expression"⟩
  | t :: rest, arr =>
    if t = .sym "]" then
      if arr.isEmpty then .ok (rest, arr)
      else .error ⟨.errParseSQL, "Expected field value, but found closing bracket in query"⟩
    else
      match rest with
      | [] => .error ⟨.errParseSQL, "Expected closing bracket or comma, but found end of expression"⟩
      | t2 :: rest2 =>
        if t2 = .sym "]" then .ok (rest2, arr ++ [token2kv t])
        else if t2 = .sym "," then captureLoop rest2 (arr ++ [token2kv t])
        else .error ⟨.errParseSQL, "Expected closing bracket or comma in query"⟩

/-- ExpressionEvaluator::getPrimaryToken, name-token branch (resolution of a
field or select-function reference against the payload). -/
def resolveName (env : EvalEnv) (s : String) (c : ECtx) (rest : List Tok) :
    Except Err (Rat × ECtx) :=
  match env.indexed s with
  | some fi =>
    if fi.isArray then
      .ok (0, { c with toks := rest, arr := c.arr ++ fi.values })
    else if c.state = .stateArrayConcat then
      .ok (0, { c with toks := rest, arr := c.arr ++ env.byJsonPath s })
    else
      match fi.ktype with
      | .kInt | .kInt64 | .kDouble =>
        match fi.values with
        | [] => .error ⟨.errLogic, "Calculating value of an empty field is impossible: " ++ s⟩
        | v :: _ => .ok (v.asDouble, { c with toks := rest })
      | _ => .error ⟨.errLogic, kWrongFieldTypeError s⟩
  | none =>
    let vals := env.byJsonPath s
    match vals with
    | [] => .ok (env.execFunction s, { c with toks := rest })
    | v :: vs =>
      if vs.length + 1 > 1 ∨ c.state = .stateArrayConcat then
        .ok (0, { c with toks := rest, arr := c.arr ++ vals })
      else
        match v.vtype with
        | .kInt | .kInt64 | .kDouble => .ok (v.asDouble, { c with toks := rest })
        | _ => .error ⟨.errLogic, kWrongFieldTypeError s⟩

mutual

/-- ExpressionEvaluator::getPrimaryToken. -/
def getPrimaryToken (env : EvalEnv) : Nat → ECtx → Except Err (Rat × ECtx)
  | 0, _ => .error ⟨.errLogic, "evaluator fuel exhausted"⟩
  | fuel + 1, c =>
    match c.toks with
    | [] =>
      .error ⟨.errLogic, "Only integral type non-array fields are supported in arithmetical expressions"⟩
    | t :: rest =>
      match t with
      | .sym "(" => do
        let (val, c1) ← performSumAndSubtracting env fuel { c with toks := rest }
        match c1.toks with
        | .sym ")" :: rest1 => .ok (val, { c1 with toks := rest1 })
        | _ => .error ⟨.errLogic, "closing parenthesis expected in arithmetical expression"⟩
      | .sym "[" => do
        let (rest1, arr1) ← captureLoop rest c.arr
        .ok (0, { c with toks := rest1, arr := arr1 })
      | .num q => .ok (q, { c with toks := rest })
      | .name s => resolveName env s c rest
      | .sym _ =>
        .error ⟨.errLogic, "Only integral type non-array fields are supported in arithmetical expressions"⟩
termination_by structural fuel c => fuel

/-- The while loop of ExpressionEvaluator::performArrayConcatenation. -/
def arrayConcatLoop (env : EvalEnv) : Nat → Rat → ECtx → Except Err (Rat × ECtx)
  | 0, _, _ => .error ⟨.errLogic, "evaluator fuel exhausted"⟩
  | fuel + 1, left, c =>
    match c.toks with
    | .sym "|" :: rest =>
      match rest with
      | .sym "|" :: rest2 => do
        let (_, c1) ← getPrimaryToken env fuel { c with toks := rest2, state := .stateArrayConcat }
        arrayConcatLoop env fuel left c1
      | _ => .error ⟨.errLogic, "Expected second vertical bar of the concatenation operator"⟩
    | _ => .ok (left, c)
termination_by structural fuel left c => fuel

/-- ExpressionEvaluator::performArrayConcatenation. -/
def performArrayConcatenation (env : EvalEnv) : Nat → ECtx → Except Err (Rat × ECtx)
  | 0, _ => .error ⟨.errLogic, "evaluator fuel exhausted"⟩
  | fuel + 1, c => do
    let (left, c1) ← getPrimaryToken env fuel c
    arrayConcatLoop env fuel left c1
termination_by structural fuel c => fuel

/-- The while loop of ExpressionEvaluator::performMultiplicationAndDivision:
the right operand of either operator is produced by a full recursive call. -/
def mulDivLoop (env : EvalEnv) : Nat → Rat → ECtx → Except Err (Rat × ECtx)
  | 0, _, _ => .error ⟨.errLogic, "evaluator fuel exhausted"⟩
  | fuel + 1, left, c =>
    match c.toks with
    | .sym "*" :: rest => do
      let (val, c1) ←
        performMultiplicationAndDivision env fuel { c with toks := rest, state := .stateMultiplyAndDivide }
      mulDivLoop env fuel (left * val) c1
    | .sym "/" :: rest => do
      let (val, c1) ←
        performMultiplicationAndDivision env fuel { c with toks := rest, state := .stateMultiplyAndDivide }
      if val = 0 then .error ⟨.errLogic, kDivisionByZeroMsg⟩
      else mulDivLoop env fuel (left / val) c1
    | _ => .ok (left, c)
termination_by structural fuel left c => fuel

/-- ExpressionEvaluator::performMultiplicationAndDivision. -/
def performMultiplicationAndDivision (env : EvalEnv) : Nat → ECtx → Except Err (Rat × ECtx)
  | 0, _ => .error ⟨.errLogic, "evaluator fuel exhausted"⟩
  | fuel + 1, c => do
    let (left, c1) ← performArrayConcatenation env fuel c
    mulDivLoop env fuel left c1
termination_by structural fuel c => fuel

/-- The while loop of ExpressionEvaluator::performSumAndSubtracting:
the right operand is one multiplicative term, so the loop folds to the left. -/
def sumSubLoop (env : EvalEnv) : Nat → Rat → ECtx → Except Err (Rat × ECtx)
  | 0, _, _ => .error ⟨.errLogic, "evaluator fuel exhausted"⟩
  | fuel + 1, left, c =>
    match c.toks with
    | .sym "+" :: rest => do
      let (val, c1) ←
        performMultiplicationAndDivision env fuel { c with toks := rest, state := .stateSumAndSubtract }
      sumSubLoop env fuel (left + val) c1
    | .sym "-" :: rest => do
      let (val, c1) ←
        performMultiplicationAndDivision env fuel { c with toks := rest, state := .stateSumAndSubtract }
      sumSubLoop env fuel (left - val) c1
    | _ => .ok (left, c)
termination_by structural fuel left c => fuel

/-- ExpressionEvaluator::performSumAndSubtracting. -/
def performSumAndSubtracting (env : EvalEnv) : Nat → ECtx → Except Err (Rat × ECtx)
  | 0, _ => .error ⟨.errLogic, "evaluator fuel exhausted"⟩
  | fuel + 1, c => do
    let (left, c1) ← performMultiplicationAndDivision env fuel c
    sumSubLoop env fuel left c1
termination_by structural fuel c => fuel

end

/-- ExpressionEvaluator::Evaluate: run the descent from a cleared array
accumulator, then either wrap the scalar or return the marked array. -/
def Evaluate (env : EvalEnv) (fuel : Nat) (toks : List Tok) : Except Err VArr := do
  let (expressionValue, c) ← performSumAndSubtracting env fuel ⟨toks, [], .stateNone⟩
  if c.arr.isEmpty then
    .ok ⟨[.vdouble expressionValue], false⟩
  else
    .ok (VArr.markArray ⟨c.arr, false⟩)

/-- An environment with no fields at all (pure numeric expressions). -/
def emptyEnv : EvalEnv :=
  { indexed := fun _ => none, byJsonPath := fun _ => [], execFunction := fun _ => 0 }

/-- Token stream of the expression 10 / (2 - 2). -/
def divByZeroToks : List Tok :=
  [.num 10, .sym "/", .sym "(", .num 2, .sym "-", .num 2, .sym ")"]

/-- s₁ contains s₂ as a substring. -/
def containsSub (s₁ s₂ : String) : Prop := ∃ pre post, s₁ = pre ++ s₂ ++ post

instance {ε α : Type _} [DecidableEq ε] [DecidableEq α] : DecidableEq (Except ε α)
  | .error a, .error b => decidable_of_iff (a = b) (by simp)
  | .error _, .ok _ => isFalse (by simp)
  | .ok _, .error _ => isFalse (by simp)
  | .ok a, .ok b => decidable_of_iff (a = b) (by simp)

/-! ## PayloadValue (core/payload/payloadvalue.h)

The refcounted heap cell. The heap is modelled as the map from cell handles
to their strong refcounts; a PayloadValue is a nullable handle (p_). The
copy/move constructors and assignment operators are fully inline in the
header; release() (payloadvalue.cc) decrements and frees on zero. -/

/-- The shared heap: refcount of every cell handle. -/
abbrev PvHeap := Nat → Nat

/-- A PayloadValue: the nullable data pointer p_. -/
abbrev PV := Option Nat

/-- header()->refcount.fetch_add(1). -/
def pvBump (h : PvHeap) (p : Nat) : PvHeap := fun q => if q = p then h q + 1 else h q

/-- PayloadValue::release(): decrement the refcount of the held cell (the
cell is freed when it reaches zero); a null handle releases nothing. -/
def pvRelease (h : PvHeap) (v : PV) : PvHeap :=
  match v with
  | none => h
  | some p => fun q => if q = p then h q - 1 else h q

/-- PayloadValue(const PayloadValue&): adopt the handle and, when non-null,
increment its refcount. Returns the heap and the new holder. -/
def pvCopyCtor (h : PvHeap) (other : PV) : PvHeap × PV :=
  match other with
  | none => (h, none)
  | some p => (pvBump h p, some p)

/-- PayloadValue::operator=(const PayloadValue&) on two distinct objects:
release the destination, adopt the source handle, increment when non-null.
(The &other != this guard only short-circuits assignment of an object to
itself; it does not fire for two distinct holders of the same cell.)
Returns the heap and the new destination. -/
def pvCopyAssign (h : PvHeap) (dst other : PV) : PvHeap × PV :=
  let h1 := pvRelease h dst
  match other with
  | none => (h1, none)
  | some p => (pvBump h1 p, some p)

/-- PayloadValue(PayloadValue&&): steal the handle, null the source.
Returns the heap, the new holder, and the source after the move. -/
def pvMoveCtor (h : PvHeap) (other : PV) : PvHeap × PV × PV := (h, other, none)

/-- PayloadValue::operator=(PayloadValue&&) on two distinct objects: release
the destination, steal the handle, null the source. Returns the heap, the
new destination, and the source after the move. -/
def pvMoveAssign (h : PvHeap) (dst other : PV) : PvHeap × PV × PV :=
  (pvRelease h dst, other, none)

/-! ## Result pool and the C binding select path (core/cbinding/reindexer_c.cc) -/

def kQueryResultsPoolSize : Nat := 1024
def kMaxConcurentQueries : Nat := 65534
def kCtxArrSize : Nat := 1024
def kWarnLargeResultsLimit : Nat := 0x40000000
def kMaxPooledResultsCap : Nat := 0x10000

/-- static Error err_too_many_queries(errLogic, "Too many parallel queries"). -/
def err_too_many_queries : Err := ⟨.errLogic, "Too many parallel queries"⟩

/-- Modelled from the spec: sync_pool::get (estl/syncpool.h is not among the
provided sources). "Acquire returns null when the live count is at the cap"
(the hard cap on concurrent live handles being kMaxConcurentQueries);
otherwise a (reused or fresh) result builder is handed out. The builder
itself carries no state the claims observe, so it is a unit. -/
def poolGet (live : Nat) : Option Unit :=
  if kMaxConcurentQueries ≤ live then none else some ()

/-- The reindexer_ret record: err_code (modelled by the error kind), the
error message placed in out.data when err_code is non-zero, and
out.results_ptr. -/
structure RRet where
  errKind : ErrKind
  errMsg : String
  resultsPtr : Nat
  deriving DecidableEq, Repr

/-- ret2c: a non-ok error yields results_ptr = 0 and the message in data. -/
def ret2c (e : Err) (okPtr : Nat) : RRet :=
  if e.kind = .errOK then ⟨.errOK, "", okPtr⟩ else ⟨e.kind, e.msg, 0⟩

/-- reindexer_select, acquisition and result-count aspects: new_results()
consults the live count (serializedResultsCount); a null builder fails the
call with err_too_many_queries before the engine runs; otherwise the engine
outcome dbResult decides between results2c (which releases the builder to
the caller as a non-null results_ptr and increments the live count) and an
error return (the builder goes back to the pool, the count is unchanged).
Returns the reindexer_ret and the new live count. -/
def reindexer_select (dbResult : Err) (live : Nat) : RRet × Nat :=
  match poolGet live with
  | none => (ret2c err_too_many_queries 0, live)
  | some _ =>
    if dbResult.kind = .errOK then (ret2c dbResult 1, live + 1)
    else (ret2c dbResult 0, live)

/-- reindexer_free_buffer: the builder returns to the pool and the live
count (serializedResultsCount) is decremented. -/
def reindexer_free_buffer (live : Nat) : Nat := live - 1

/-! ## WordTypo size (core/ft/ft_fast/dataholder.h)

static_assert(sizeof(WordTypo) <= 16). WordTypo holds a WordIdType and a
typos_context::TyposVec; both types live in headers that are not among the
provided sources, so their layouts are modelled from the spec: "WordTypo:
16-byte record (word id + compact position vector)". -/

/-- Modelled from the spec: WordIdType (core/ft/indextexttypes.h is absent)
is a packed 32-bit word id. -/
def sizeofWordIdType : Nat := 4

/-- Modelled from the spec: the maximal number of typo positions a word
record tracks (core/ft/typos.h is absent). -/
def kMaxTyposInWord : Nat := 4

/-- Modelled from the spec: typos_context::TyposVec (core/ft/typos.h is
absent) is a compact vector of at most kMaxTyposInWord one-byte positions
plus a one-byte length. -/
def sizeofTyposVec : Nat := kMaxTyposInWord + 1

/-- Round n up to a multiple of the alignment a. -/
def alignUp (n a : Nat) : Nat := ((n + a - 1) / a) * a

/-- Alignment of WordTypo: that of its most aligned member, the 32-bit
word id. -/
def alignofWordTypo : Nat := 4

/-- sizeof(WordTypo): the two members laid out in order, padded to the
struct alignment. -/
def sizeofWordTypo : Nat := alignUp (sizeofWordIdType + sizeofTyposVec) alignofWordTypo

/-! ## Query model (core/query/query.h, core/query/queryentry.h)

Enumerations are from core/type_consts.h (not among the provided sources);
their numeric wire values are modelled, the decoder rejects out-of-range
values that the C++ cast would smuggle through. -/

inductive OpType where
  | opAnd
  | opOr
  | opNot
  deriving DecidableEq, Repr

def OpType.toNat : OpType → Nat
  | .opOr => 1
  | .opAnd => 2
  | .opNot => 3

def OpType.fromNat : Nat → Option OpType
  | 1 => some .opOr
  | 2 => some .opAnd
  | 3 => some .opNot
  | _ => none

inductive CondType where
  | condAny
  | condEq
  | condLt
  | condLe
  | condGt
  | condGe
  | condRange
  | condSet
  | condAllSet
  | condEmpty
  | condLike
  | condDWithin
  deriving DecidableEq, Repr

def CondType.toNat : CondType → Nat
  | .condAny => 0
  | .condEq => 1
  | .condLt => 2
  | .condLe => 3
  | .condGt => 4
  | .condGe => 5
  | .condRange => 6
  | .condSet => 7
  | .condAllSet => 8
  | .condEmpty => 9
  | .condLike => 10
  | .condDWithin => 11

def CondType.fromNat : Nat → Option CondType
  | 0 => some .condAny
  | 1 => some .condEq
  | 2 => some .condLt
  | 3 => some .condLe
  | 4 => some .condGt
  | 5 => some .condGe
  | 6 => some .condRange
  | 7 => some .condSet
  | 8 => some .condAllSet
  | 9 => some .condEmpty
  | 10 => some .condLike
  | 11 => some .condDWithin
  | _ => none

inductive JoinType where
  | leftJoin
  | innerJoin
  | orInnerJoin
  | merge
  deriving DecidableEq, Repr

def JoinType.toNat : JoinType → Nat
  | .leftJoin => 0
  | .innerJoin => 1
  | .orInnerJoin => 2
  | .merge => 3

def JoinType.fromNat : Nat → Option JoinType
  | 0 => some .leftJoin
  | 1 => some .innerJoin
  | 2 => some .orInnerJoin
  | 3 => some .merge
  | _ => none

inductive AggType where
  | aggSum
  | aggAvg
  | aggFacet
  | aggMin
  | aggMax
  | aggDistinct
  deriving DecidableEq, Repr

def AggType.toNat : AggType → Nat
  | .aggSum => 0
  | .aggAvg => 1
  | .aggFacet => 2
  | .aggMin => 3
  | .aggMax => 4
  | .aggDistinct => 5

def AggType.fromNat : Nat → Option AggType
  | 0 => some .aggSum
  | 1 => some .aggAvg
  | 2 => some .aggFacet
  | 3 => some .aggMin
  | 4 => some .aggMax
  | 5 => some .aggDistinct
  | _ => none

inductive CalcTotalMode where
  | modeNoTotal
  | modeCachedTotal
  | modeAccurateTotal
  deriving DecidableEq, Repr

def CalcTotalMode.toNat : CalcTotalMode → Nat
  | .modeNoTotal => 0
  | .modeCachedTotal => 1
  | .modeAccurateTotal => 2

def CalcTotalMode.fromNat : Nat → Option CalcTotalMode
  | 0 => some .modeNoTotal
  | 1 => some .modeCachedTotal
  | 2 => some .modeAccurateTotal
  | _ => none

inductive StrictMode where
  | strictModeNotSet
  | strictModeNone
  | strictModeNames
  | strictModeIndexes
  deriving DecidableEq, Repr

def StrictMode.toNat : StrictMode → Nat
  | .strictModeNotSet => 0
  | .strictModeNone => 1
  | .strictModeNames => 2
  | .strictModeIndexes => 3

def StrictMode.fromNat : Nat → Option StrictMode
  | 0 => some .strictModeNotSet
  | 1 => some .strictModeNone
  | 2 => some .strictModeNames
  | 3 => some .strictModeIndexes
  | _ => none

inductive QueryType where
  | querySelect
  | queryDelete
  | queryUpdate
  | queryTruncate
  deriving DecidableEq, Repr

inductive FieldModifyMode where
  | fieldModeSet
  | fieldModeDrop
  | fieldModeSetJson
  deriving DecidableEq, Repr

/-- QueryEntry::kDefaultLimit = UINT_MAX. -/
def kDefaultLimit : Nat := 4294967295

/-- QueryEntry::kDefaultOffset. -/
def kDefaultOffset : Nat := 0

/-- SortingEntry: expression and direction (the transient resolved index is
neither serialized nor part of equality). -/
structure RSortingEntry where
  expression : String
  desc : Bool
  deriving DecidableEq, Repr

/-- AggregateEntry: type, fields, optional sorting and limit/offset. -/
structure RAggregateEntry where
  type : AggType
  fields : List String
  sorting : List RSortingEntry
  limit : Nat := kDefaultLimit
  offset : Nat := kDefaultOffset
  deriving DecidableEq, Repr

/-- AggregateEntry::AddSortingEntry. -/
def RAggregateEntry.addSortingEntry (a : RAggregateEntry) (se : RSortingEntry) : RAggregateEntry :=
  { a with sorting := a.sorting ++ [se] }

/-- AggregateEntry::SetLimit. -/
def RAggregateEntry.setLimit (a : RAggregateEntry) (l : Nat) : RAggregateEntry :=
  { a with limit := l }

/-- AggregateEntry::SetOffset. -/
def RAggregateEntry.setOffset (a : RAggregateEntry) (o : Nat) : RAggregateEntry :=
  { a with offset := o }

/-- UpdateEntry: column, values (a VariantArray, the marker participates in
serialization), mode and the is-expression flag. -/
structure RUpdateEntry where
  column : String
  values : VArr
  mode : FieldModifyMode
  isExpression : Bool
  deriving DecidableEq

/-- UpdateEntry::operator== (queryentry.cc is absent): column, mode and
expression flag, with values compared element-wise (the array marker is not
part of h_vector equality). -/
def updateEntryEq (a b : RUpdateEntry) : Bool :=
  a.column == b.column && a.values.items == b.values.items &&
  a.mode == b.mode && a.isExpression == b.isExpression

/-- QueryJoinEntry: operation, condition and the two field names (the
transient resolved-index data is not modelled; reverseNamespacesOrder only
controls SQL encoding order). -/
structure RQueryJoinEntry where
  op : OpType
  condition : CondType
  leftFieldName : String
  rightFieldName : String
  deriving DecidableEq, Repr

/-- A leaf of the QueryEntries tree. -/
inductive QAtom where
  | qentry (fieldName : String) (condition : CondType) (values : List RVariant) (distinct : Bool)
  | betweenFields (leftField : String) (condition : CondType) (rightField : String)
  | joinEntry (joinIndex : Nat)
  | alwaysFalse
  deriving DecidableEq

/-- A cell of the QueryEntries expression tree: a leaf with its operation,
or a bracket with its operation, equal-position groups and children. -/
inductive QNode where
  | leaf (op : OpType) (atom : QAtom)
  | bracket (op : OpType) (equalPositions : List (List String)) (children : List QNode)

mutual

/-- Equality of tree cells: leaves compare operation and payload (field
names, condition, values, distinct — transient index data ignored);
brackets compare operation, equal positions and children. -/
def qnodeEq : QNode → QNode → Bool
  | .leaf aop aat, .leaf bop bat => aop == bop && aat == bat
  | .bracket aop aeq ach, .bracket bop beq bch =>
    aop == bop && aeq == beq && qnodesEq ach bch
  | _, _ => false

def qnodesEq : List QNode → List QNode → Bool
  | [], [] => true
  | a :: as, b :: bs => qnodeEq a b && qnodesEq as bs
  | _, _ => false

end

/-- The QueryEntries container (core/expressiontree.h is not among the
provided sources; per the spec the tree is a flat sequence with open/close
markers). Finished top-level cells live in nodes; brackets still being
built (between OpenBracket and CloseBracket) live in openCtx, innermost
first, each with its operation and the children collected so far; the
root-level equal-position groups live in equalPositions. -/
structure QEntries where
  nodes : List QNode
  openCtx : List (OpType × List QNode)
  equalPositions : List (List String)

/-- ExpressionTree::Append: a new leaf goes to the innermost open bracket,
or to the top level when no bracket is open. -/
def QEntries.append (e : QEntries) (n : QNode) : QEntries :=
  match e.openCtx with
  | [] => { e with nodes := e.nodes ++ [n] }
  | (op, ch) :: rest => { e with openCtx := (op, ch ++ [n]) :: rest }

/-- ExpressionTree::OpenBracket. -/
def QEntries.openBracket (e : QEntries) (op : OpType) : QEntries :=
  { e with openCtx := (op, []) :: e.openCtx }

/-- ExpressionTree::CloseBracket: closing with no open bracket is an error;
otherwise the innermost open bracket becomes a bracket cell (its
equal-position groups start empty) appended one level up. -/
def QEntries.closeBracket (e : QEntries) : Except Err QEntries :=
  match e.openCtx with
  | [] => .error ⟨.errLogic, "Close bracket before open bracket"⟩
  | (op, ch) :: rest =>
    .ok (QEntries.append { e with openCtx := rest } (.bracket op [] ch))

/-- The empty entries tree. -/
def QEntries.empty : QEntries := ⟨[], [], []⟩

/-- The scalar part of a Query: every field of class Query except the join
and merge query lists (which are recursive). Defaults are those of the
Query(nsName) constructor and member initializers. -/
structure QBase where
  namespace_ : String
  start : Nat := kDefaultOffset
  count : Nat := kDefaultLimit
  calcTotal : CalcTotalMode := .modeNoTotal
  debugLevel : Nat := 0
  strictMode : StrictMode := .strictModeNotSet
  explain : Bool := false
  withRank : Bool := false
  qtype : QueryType := .querySelect
  entries : QEntries := QEntries.empty
  aggregations : List RAggregateEntry := []
  sortingEntries : List RSortingEntry := []
  forcedSortOrder : List RVariant := []
  selectFilter : List String := []
  selectFunctions : List String := []
  updateFields : List RUpdateEntry := []

/-- A Query together with the JoinedQuery extras (joinType and joinEntries
are meaningful for queries stored in a join or merge list; a root query
keeps the JoinedQuery defaults). -/
inductive RQuery where
  | mk (base : QBase) (joinType : JoinType) (joinEntries : List RQueryJoinEntry)
      (joinQueries : List RQuery) (mergeQueries : List RQuery)

def RQuery.base : RQuery → QBase
  | .mk b _ _ _ _ => b

def RQuery.joinType : RQuery → JoinType
  | .mk _ jt _ _ _ => jt

def RQuery.joinEntries : RQuery → List RQueryJoinEntry
  | .mk _ _ je _ _ => je

def RQuery.joinQueries : RQuery → List RQuery
  | .mk _ _ _ jq _ => jq

def RQuery.mergeQueries : RQuery → List RQuery
  | .mk _ _ _ _ mq => mq

/-- Variant::RelaxCompare<WithString::Yes> equality on forced-sort values
(core/keyvalue/variant.cc is absent; per the spec this comparator is
relaxed and string-coercing): numeric variants compare by numeric value
across int/int64/double, other combinations fall back to structural
equality. -/
def relaxCompareEq (a b : RVariant) : Bool :=
  match a, b with
  | .vint x, .vint y => x == y
  | .vint x, .vint64 y => x == y
  | .vint x, .vdouble y => (x : Rat) == y
  | .vint64 x, .vint y => x == y
  | .vint64 x, .vint64 y => x == y
  | .vint64 x, .vdouble y => (x : Rat) == y
  | .vdouble x, .vint y => x == (y : Rat)
  | .vdouble x, .vint64 y => x == (y : Rat)
  | .vdouble x, .vdouble y => x == y
  | _, _ => RVariant.beq a b

/-- Pairwise RelaxCompare equality of the forced-sort vectors (the size is
compared first, as in Query::operator==). -/
def relaxEqList : List RVariant → List RVariant → Bool
  | [], [] => true
  | a :: as, b :: bs => relaxCompareEq a b && relaxEqList as bs
  | _, _ => false

/-- Pairwise UpdateEntry equality. -/
def updateFieldsEq : List RUpdateEntry → List RUpdateEntry → Bool
  | [], [] => true
  | a :: as, b :: bs => updateEntryEq a b && updateFieldsEq as bs
  | _, _ => false

/-- The non-recursive fields of Query::operator==: entries (the tree cells;
the root-level equal-position list is not part of ExpressionTree equality),
aggregations, namespace, sorting entries, calc-total, offset, limit, debug
level, strict mode, forced sort order under RelaxCompare, select filter,
select functions and update fields. explain_, withRank_, type_ and nextOp_
are not compared. -/
def qBaseEq (a b : QBase) : Bool :=
  qnodesEq a.entries.nodes b.entries.nodes &&
  a.aggregations == b.aggregations &&
  a.namespace_ == b.namespace_ &&
  a.sortingEntries == b.sortingEntries &&
  a.calcTotal == b.calcTotal &&
  a.start == b.start &&
  a.count == b.count &&
  a.debugLevel == b.debugLevel &&
  a.strictMode == b.strictMode &&
  a.forcedSortOrder.length == b.forcedSortOrder.length &&
  relaxEqList a.forcedSortOrder b.forcedSortOrder &&
  a.selectFilter == b.selectFilter &&
  a.selectFunctions == b.selectFunctions &&
  updateFieldsEq a.updateFields b.updateFields

mutual

/-- Query::operator==: the scalar fields plus the join and merge query
lists, whose elements compare as JoinedQuery. -/
def rqueryEq : RQuery → RQuery → Bool
  | .mk ab _ _ aj am, .mk bb _ _ bj bm =>
    qBaseEq ab bb && joinedListEq aj bj && joinedListEq am bm
termination_by structural a b => a

/-- Pairwise JoinedQuery::operator== (joinEntries, joinType, then
Query::operator==) over the join or merge lists. -/
def joinedListEq : List RQuery → List RQuery → Bool
  | [], [] => true
  | a :: as, b :: bs =>
    (a.joinEntries == b.joinEntries && a.joinType == b.joinType && rqueryEq a b) &&
    joinedListEq as bs
  | _, _ => false
termination_by structural l1 l2 => l1

end

/-- JoinedQuery::operator==: joinEntries, joinType, then Query::operator==. -/
def joinedQueryEq (a b : RQuery) : Bool :=
  a.joinEntries == b.joinEntries && a.joinType == b.joinType && rqueryEq a b

/-! ### Query builder methods (core/query/query.h) -/

/-- kAggregationWithSelectFieldsMsgError (query.h:18, quotes elided). -/
def kAggregationWithSelectFieldsMsgErr : String :=
  "Not allowed to combine aggregation functions and fields filter in a single query"

/-- Message of the forced-sort-order params error (query.h:566, query.cc:164). -/
def kForcedSortOrderMsg : String :=
  "Forced sort order is allowed for the first sorting entry only"

/-- Query::Sort(sort, desc): appends a sorting entry when the expression is
non-empty — no forced-sort check of any kind. -/
def QBase.sort (q : QBase) (s : String) (desc : Bool) : QBase :=
  if s = "" then q
  else { q with sortingEntries := q.sortingEntries ++ [⟨s, desc⟩] }

/-- Query::Sort(sort, desc, forcedSortOrder): throws a params error when a
non-empty forced order arrives and sorting entries already exist; otherwise
appends the entry and the forced values. -/
def QBase.sortForced (q : QBase) (s : String) (desc : Bool) (forced : List RVariant) :
    Except Err QBase :=
  if q.sortingEntries ≠ [] ∧ forced ≠ [] then
    .error ⟨.errParams, kForcedSortOrderMsg⟩
  else
    .ok { q with sortingEntries := q.sortingEntries ++ [⟨s, desc⟩],
                 forcedSortOrder := q.forcedSortOrder ++ forced }

/-- Query::CanAddAggregation. -/
def QBase.canAddAggregation (q : QBase) (type : AggType) : Bool :=
  type == .aggDistinct || q.selectFilter.isEmpty

/-- Query::CanAddSelectFilter. -/
def QBase.canAddSelectFilter (q : QBase) : Bool :=
  match q.aggregations with
  | [] => true
  | [a] => a.type == .aggDistinct
  | _ => false

/-- Query::Select: conflict error unless a select filter may be added; the
new columns are inserted at the front of the filter list. -/
def QBase.select (q : QBase) (l : List String) : Except Err QBase :=
  if !q.canAddSelectFilter then .error ⟨.errConflict, kAggregationWithSelectFieldsMsgErr⟩
  else .ok { q with selectFilter := l ++ q.selectFilter }

/-- Query::Aggregate: conflict error unless an aggregation of this type may
be added; otherwise the aggregation is appended. -/
def QBase.aggregate (q : QBase) (type : AggType) (fields : List String)
    (sort : List RSortingEntry) (limit offset : Nat) : Except Err QBase :=
  if !q.canAddAggregation type then .error ⟨.errConflict, kAggregationWithSelectFieldsMsgErr⟩
  else .ok { q with aggregations := q.aggregations ++ [⟨type, fields, sort, limit, offset⟩] }

/-- Query::Distinct: appends a distinct aggregation for a non-empty index
name, with no conflict check. -/
def QBase.distinct (q : QBase) (indexName : String) : QBase :=
  if indexName = "" then q
  else { q with aggregations :=
    q.aggregations ++ [⟨.aggDistinct, [indexName], [], kDefaultLimit, kDefaultOffset⟩] }

/-- Query::Set (the VariantArray overload): records a FieldModeSet update
field; an empty column name is a params error (UpdateEntry constructor). -/
def QBase.set (q : QBase) (field : String) (value : VArr) (hasExpressions : Bool) :
    Except Err QBase :=
  if field = "" then .error ⟨.errParams, "Empty update column name"⟩
  else .ok { q with updateFields := q.updateFields ++ [⟨field, value, .fieldModeSet, hasExpressions⟩] }

/-- Query::Drop: records a FieldModeDrop update field; an empty column name
is a params error (UpdateEntry constructor). -/
def QBase.drop (q : QBase) (field : String) : Except Err QBase :=
  if field = "" then .error ⟨.errParams, "Empty update column name"⟩
  else .ok { q with updateFields := q.updateFields ++ [⟨field, ⟨[], false⟩, .fieldModeDrop, false⟩] }

/-- Query::SetObject: every value must be a string variant carrying JSON;
records a FieldModeSetJson update field. -/
def QBase.setObject (q : QBase) (field : String) (value : VArr) (hasExpressions : Bool) :
    Except Err QBase :=
  if value.items.any (fun v => !(v.vtype == .kString)) then
    .error ⟨.errLogic, "Unexpected variant type in SetObject: expecting string with JSON-content"⟩
  else if field = "" then .error ⟨.errParams, "Empty update column name"⟩
  else .ok { q with updateFields := q.updateFields ++ [⟨field, value, .fieldModeSetJson, hasExpressions⟩] }

/-- The invariant of the claim about forced sort orders: a non-empty forced
sort order exists only with exactly one sorting entry. -/
def sortInvariant (q : QBase) : Prop :=
  q.forcedSortOrder ≠ [] → q.sortingEntries.length = 1

/-- The invariant of the claim about aggregations: non-empty aggregations
and a non-empty select filter coexist only when the aggregations are all
distinct. -/
def aggInvariant (q : QBase) : Prop :=
  q.aggregations ≠ [] → q.selectFilter ≠ [] → ∀ a ∈ q.aggregations, a.type = .aggDistinct

instance (q : QBase) : Decidable (sortInvariant q) := by
  unfold sortInvariant
  infer_instance

instance (q : QBase) : Decidable (aggInvariant q) := by
  unfold aggInvariant
  infer_instance

/-! ## Binary query codec (core/query/query.cc Serialize/Deserialize)

The byte-level serializer (tools/serializer.h is not among the provided
sources) is modelled as a list of atoms: a var-length unsigned, a
length-prefixed string, or a variant record. The record tags come from the
QueryItemType enumeration of core/type_consts.h (absent; values modelled). -/

inductive Atom where
  | nat (x : Nat)
  | str (x : String)
  | var (x : RVariant)
  deriving DecidableEq

def QueryCondition : Nat := 0
def QueryDistinct : Nat := 1
def QuerySortIndex : Nat := 2
def QueryJoinOn : Nat := 3
def QueryLimit : Nat := 4
def QueryOffset : Nat := 5
def QueryReqTotal : Nat := 6
def QueryDebugLevel : Nat := 7
def QueryAggregation : Nat := 8
def QuerySelectFilter : Nat := 9
def QuerySelectFunction : Nat := 10
def QueryEnd : Nat := 11
def QueryExplain : Nat := 12
def QueryEqualPosition : Nat := 13
def QueryUpdateField : Nat := 14
def QueryAggregationLimit : Nat := 15
def QueryAggregationOffset : Nat := 16
def QueryAggregationSort : Nat := 17
def QueryOpenBracket : Nat := 18
def QueryCloseBracket : Nat := 19
def QueryJoinCondition : Nat := 20
def QueryDropField : Nat := 21
def QueryUpdateObject : Nat := 22
def QueryWithRank : Nat := 23
def QueryStrictMode : Nat := 24
def QueryUpdateFieldV2 : Nat := 25
def QueryBetweenFieldsCondition : Nat := 26
def QueryAlwaysFalseCondition : Nat := 27

/-- Serialization mode bits (Normal has none set). -/
structure SerMode where
  skipJoinQueries : Bool := false
  skipMergeQueries : Bool := false
  withJoinEntries : Bool := false
  skipLimitOffset : Bool := false
  deriving DecidableEq, Repr

def boolToNat (b : Bool) : Nat := if b then 1 else 0

/-! ### Encoding -/

/-- Condition values of one QueryEntry: a DWithin entry (point tuple plus
distance) serializes as three variants, any other as a counted list
(queryentry.cc is absent; the layout is fixed by the spec and by the
decoder cases in query.cc). -/
def encCondValues (cond : CondType) (vals : List RVariant) : List Atom :=
  match cond, vals with
  | .condDWithin, [.vtuple [x, y], d] => [.nat 3, .var x, .var y, .var d]
  | _, _ => .nat vals.length :: vals.map .var

mutual

/-- QueryEntries::serialize of one cell (queryentry.cc is absent; record
layouts follow the spec enumeration and the field order the decoder in
query.cc expects). A distinct entry serializes as QueryDistinct with only
the field name; a join entry encodes its operation as the numeric
or-inner/inner join type. -/
def encNode : QNode → List Atom
  | .leaf op (.qentry f cond vals dist) =>
    if dist then [.nat QueryDistinct, .str f]
    else [.nat QueryCondition, .str f, .nat op.toNat, .nat cond.toNat] ++ encCondValues cond vals
  | .leaf op (.betweenFields l cond r) =>
    [.nat QueryBetweenFieldsCondition, .nat op.toNat, .str l, .nat cond.toNat, .str r]
  | .leaf op (.joinEntry idx) =>
    [.nat QueryJoinCondition,
     .nat (if op = .opOr then JoinType.orInnerJoin.toNat else JoinType.innerJoin.toNat),
     .nat idx]
  | .leaf op .alwaysFalse => [.nat QueryAlwaysFalseCondition, .nat op.toNat]
  | .bracket op _ ch => [.nat QueryOpenBracket, .nat op.toNat] ++ encNodes ch ++ [.nat QueryCloseBracket]

def encNodes : List QNode → List Atom
  | [] => []
  | n :: ns => encNode n ++ encNodes ns

end

/-- One QueryEqualPosition record for bracket index idx (0 = root). -/
def encEqPosGroup (idx : Nat) (ep : List String) : List Atom :=
  [.nat QueryEqualPosition, .nat idx, .nat ep.length] ++ ep.map .str

def encEqPosGroups (idx : Nat) : List (List String) → List Atom
  | [] => []
  | ep :: rest => encEqPosGroup idx ep ++ encEqPosGroups idx rest

mutual

/-- The bracket equal-position walk of Query::Serialize: every cell is
visited in flat (preorder) index order; a bracket cell at flat index i
emits its equal-position groups with bracket index i+1. Returns the atoms
and the next flat index. -/
def encEqPosNode : QNode → Nat → List Atom × Nat
  | .leaf _ _, i => ([], i + 1)
  | .bracket _ eqp ch, i =>
    let sub := encEqPosNodes ch (i + 1)
    (encEqPosGroups (i + 1) eqp ++ sub.1, sub.2)

def encEqPosNodes : List QNode → Nat → List Atom × Nat
  | [], i => ([], i)
  | n :: ns, i =>
    let a := encEqPosNode n i
    let b := encEqPosNodes ns a.2
    (a.1 ++ b.1, b.2)

end

def encAggSorts : List RSortingEntry → List Atom
  | [] => []
  | se :: rest =>
    [.nat QueryAggregationSort, .str se.expression, .nat (boolToNat se.desc)] ++ encAggSorts rest

/-- One aggregation record: type, counted fields, sorting entries, then
limit and offset only when they differ from the defaults. -/
def encAgg (a : RAggregateEntry) : List Atom :=
  [.nat QueryAggregation, .nat a.type.toNat, .nat a.fields.length] ++ a.fields.map .str
  ++ encAggSorts a.sorting
  ++ (if a.limit ≠ kDefaultLimit then [.nat QueryAggregationLimit, .nat a.limit] else [])
  ++ (if a.offset ≠ kDefaultOffset then [.nat QueryAggregationOffset, .nat a.offset] else [])

def encAggs : List RAggregateEntry → List Atom
  | [] => []
  | a :: rest => encAgg a ++ encAggs rest

/-- The sorting records: every sorting entry carries the full forced-sort
vector (count plus variants). -/
def encSortEntries (forced : List RVariant) : List RSortingEntry → List Atom
  | [] => []
  | se :: rest =>
    [.nat QuerySortIndex, .str se.expression, .nat (boolToNat se.desc), .nat forced.length]
    ++ forced.map .var ++ encSortEntries forced rest

def encJoinOn : List RQueryJoinEntry → List Atom
  | [] => []
  | e :: rest =>
    [.nat QueryJoinOn, .nat e.op.toNat, .nat e.condition.toNat,
     .str e.leftFieldName, .str e.rightFieldName] ++ encJoinOn rest

def encSelectFilters : List String → List Atom
  | [] => []
  | s :: rest => [.nat QuerySelectFilter, .str s] ++ encSelectFilters rest

def encExprVals (isExpression : Bool) : List RVariant → List Atom
  | [] => []
  | v :: rest => [.nat (boolToNat isExpression), .var v] ++ encExprVals isExpression rest

/-- The update-field records: FieldModeSet as UpdateFieldV2 (array marker,
count, then per value the expression flag and the variant), FieldModeDrop
as DropField; any other mode makes Serialize throw a logic error. -/
def encUpdateFields : List RUpdateEntry → Except Err (List Atom)
  | [] => .ok []
  | f :: rest =>
    match f.mode with
    | .fieldModeSet => do
      let tail ← encUpdateFields rest
      .ok ([.nat QueryUpdateFieldV2, .str f.column, .nat (boolToNat f.values.isArrayValue),
            .nat f.values.items.length] ++ encExprVals f.isExpression f.values.items ++ tail)
    | .fieldModeDrop => do
      let tail ← encUpdateFields rest
      .ok ([.nat QueryDropField, .str f.column] ++ tail)
    | .fieldModeSetJson => .error ⟨.errLogic, "Unsupported item modification mode"⟩

/-- Query::Serialize of the query body (everything up to and including
QueryEnd): namespace, entries tree, aggregations, sorting entries, join-on
records (only with WithJoinEntries), equal positions (root groups first,
then per bracket in flat order), debug level, strict mode when set, limit
and offset when present (and not skipped), total mode when set, select
filters, explain and with-rank flags, update fields, QueryEnd. The select
functions are never written. -/
def encBody (q : QBase) (mode : SerMode) (joinEntries : List RQueryJoinEntry) :
    Except Err (List Atom) := do
  let upd ← encUpdateFields q.updateFields
  .ok (encNodes q.entries.nodes
    ++ encAggs q.aggregations
    ++ encSortEntries q.forcedSortOrder q.sortingEntries
    ++ (if mode.withJoinEntries then encJoinOn joinEntries else [])
    ++ encEqPosGroups 0 q.entries.equalPositions
    ++ (encEqPosNodes q.entries.nodes 0).1
    ++ [.nat QueryDebugLevel, .nat q.debugLevel]
    ++ (if q.strictMode ≠ .strictModeNotSet then [.nat QueryStrictMode, .nat q.strictMode.toNat] else [])
    ++ (if !mode.skipLimitOffset then
          (if q.count ≠ kDefaultLimit then [.nat QueryLimit, .nat q.count] else [])
          ++ (if q.start ≠ kDefaultOffset then [.nat QueryOffset, .nat q.start] else [])
        else [])
    ++ (if q.calcTotal ≠ .modeNoTotal then [.nat QueryReqTotal, .nat q.calcTotal.toNat] else [])
    ++ encSelectFilters q.selectFilter
    ++ (if q.explain then [.nat QueryExplain] else [])
    ++ (if q.withRank then [.nat QueryWithRank] else [])
    ++ upd
    ++ [.nat QueryEnd])

/-- Query::Serialize of the full body: the namespace string followed by the
records of encBody. -/
def encQBase (q : QBase) (mode : SerMode) (joinEntries : List RQueryJoinEntry) :
    Except Err (List Atom) := do
  let body ← encBody q mode joinEntries
  .ok (.str q.namespace_ :: body)

mutual

/-- Query::Serialize: the body, then (unless skipped) each join query as
its join type followed by its serialization with WithJoinEntries only, then
(unless skipped) each merge query as its join type followed by its
serialization with the current mode plus WithJoinEntries. -/
def encQuery : RQuery → SerMode → Except Err (List Atom)
  | .mk base _ je jqs mqs, mode => do
    let body ← encQBase base mode je
    let js ← if mode.skipJoinQueries then pure [] else encJoinList jqs
    let ms ← if mode.skipMergeQueries then pure [] else encMergeList mqs mode
    pure (body ++ js ++ ms)

def encJoinList : List RQuery → Except Err (List Atom)
  | [] => pure []
  | jq :: rest => do
    let a ← encQuery jq { withJoinEntries := true }
    let b ← encJoinList rest
    pure (Atom.nat jq.joinType.toNat :: (a ++ b))

def encMergeList : List RQuery → SerMode → Except Err (List Atom)
  | [], _ => pure []
  | mq :: rest, mode => do
    let a ← encQuery mq { mode with withJoinEntries := true }
    let b ← encMergeList rest mode
    pure (Atom.nat mq.joinType.toNat :: (a ++ b))

end

/-! ### Decoding -/

def rdNat : List Atom → Except Err (Nat × List Atom)
  | .nat x :: r => .ok (x, r)
  | _ => .error ⟨.errParseBin, "Binary buffer broken - unsigned expected"⟩

def rdStr : List Atom → Except Err (String × List Atom)
  | .str x :: r => .ok (x, r)
  | _ => .error ⟨.errParseBin, "Binary buffer broken - string expected"⟩

def rdVar : List Atom → Except Err (RVariant × List Atom)
  | .var x :: r => .ok (x, r)
  | _ => .error ⟨.errParseBin, "Binary buffer broken - variant expected"⟩

def rdVars : Nat → List Atom → Except Err (List RVariant × List Atom)
  | 0, ts => .ok ([], ts)
  | n + 1, ts => do
    let (v, r1) ← rdVar ts
    let (vs, r2) ← rdVars n r1
    .ok (v :: vs, r2)

def rdStrs : Nat → List Atom → Except Err (List String × List Atom)
  | 0, ts => .ok ([], ts)
  | n + 1, ts => do
    let (v, r1) ← rdStr ts
    let (vs, r2) ← rdStrs n r1
    .ok (v :: vs, r2)

/-- Read a numeric enum value; the C++ cast is unchecked, out-of-range
values are modelled as a parse error. -/
def rdOp (ts : List Atom) : Except Err (OpType × List Atom) := do
  let (x, r) ← rdNat ts
  match OpType.fromNat x with
  | some op => .ok (op, r)
  | none => .error ⟨.errParseBin, "Invalid operation type"⟩

def rdCond (ts : List Atom) : Except Err (CondType × List Atom) := do
  let (x, r) ← rdNat ts
  match CondType.fromNat x with
  | some c => .ok (c, r)
  | none => .error ⟨.errParseBin, "Invalid condition type"⟩

/-- The numValues loop of the update-field cases: per value an expression
flag (the last one read wins) and a variant. -/
def rdExprVals : Nat → Bool → List RVariant → List Atom →
    Except Err (Bool × List RVariant × List Atom)
  | 0, he, acc, ts => .ok (he, acc, ts)
  | n + 1, _, acc, ts => do
    let (e, r1) ← rdNat ts
    let (v, r2) ← rdVar r1
    rdExprVals n (e ≠ 0) (acc ++ [v]) r2

mutual

def qnodeSize : QNode → Nat
  | .leaf _ _ => 1
  | .bracket _ _ ch => 1 + qnodesSize ch

def qnodesSize : List QNode → Nat
  | [] => 0
  | n :: ns => qnodeSize n + qnodesSize ns

end

/-- entries.Get&lt;QueryEntriesBracket&gt;(i).equalPositions.emplace_back:
append an equal-position group to the bracket at flat index i; none when
the index does not name a bracket cell. -/
def setEqPosAt : Nat → List QNode → Nat → List String → Option (List QNode)
  | 0, _, _, _ => none
  | _ + 1, [], _, _ => none
  | fuel + 1, n :: ns, i, ep =>
    if i = 0 then
      match n with
      | .bracket op eqp ch => some (QNode.bracket op (eqp ++ [ep]) ch :: ns)
      | .leaf _ _ => none
    else
      if i < qnodeSize n then
        match n with
        | .bracket op eqp ch =>
          (setEqPosAt fuel ch (i - 1) ep).map (fun ch2 => QNode.bracket op eqp ch2 :: ns)
        | .leaf _ _ => none
      else (setEqPosAt fuel ns (i - qnodeSize n) ep).map (n :: ·)
termination_by structural fuel ns i ep => fuel

/-- The equal-position attachment after the body loop: index 0 goes to the
root group list, index i+1 to the bracket at flat index i. -/
def attachEqPositions (e : QEntries) : List (Nat × List String) → Except Err QEntries
  | [] => .ok e
  | (0, ep) :: rest => attachEqPositions { e with equalPositions := e.equalPositions ++ [ep] } rest
  | (pos + 1, ep) :: rest =>
    match setEqPosAt (pos + 1) e.nodes pos ep with
    | some ns => attachEqPositions { e with nodes := ns } rest
    | none => .error ⟨.errLogic, "Equal position refers to a non-bracket entry"⟩

/-- The decoder state of one Query::deserialize body: the query fields, the
collected equal positions, the shared has-join-conditions flag, and the
JoinOn records (JoinedQuery::joinEntries_). -/
structure DecCtx where
  q : QBase
  equalPositions : List (Nat × List String)
  hasJoinConditions : Bool
  joinEntriesOut : List RQueryJoinEntry

/-- The inner aggregation loop: sort/limit/offset records extend the
aggregation entry; an unknown tag rewinds and ends the loop. -/
def decAggLoop : Nat → RAggregateEntry → List Atom → Except Err (RAggregateEntry × List Atom)
  | 0, _, _ => .error ⟨.errLogic, "decoder fuel exhausted"⟩
  | fuel + 1, ae, ts =>
    match ts with
    | [] => .ok (ae, ts)
    | _ => do
      let (atype, r1) ← rdNat ts
      if atype = QueryAggregationSort then do
        let (fn, r2) ← rdStr r1
        let (d, r3) ← rdNat r2
        decAggLoop fuel (ae.addSortingEntry ⟨fn, d ≠ 0⟩) r3
      else if atype = QueryAggregationLimit then do
        let (l, r2) ← rdNat r1
        decAggLoop fuel (ae.setLimit l) r2
      else if atype = QueryAggregationOffset then do
        let (o, r2) ← rdNat r1
        decAggLoop fuel (ae.setOffset o) r2
      else .ok (ae, ts)
termination_by structural fuel ae ts => fuel

/-- Query::deserialize: the tag dispatch loop up to QueryEnd (or the end of
the buffer), returning the state and the rest of the stream. -/
def decBody : Nat → List Atom → DecCtx → Except Err (DecCtx × List Atom)
  | 0, _, _ => .error ⟨.errLogic, "decoder fuel exhausted"⟩
  | fuel + 1, ts, c =>
    match ts with
    | [] => .ok (c, ts)
    | _ => do
      let (qtype, r0) ← rdNat ts
      if qtype = QueryCondition then do
        let (fieldName, r1) ← rdStr r0
        let (op, r2) ← rdOp r1
        let (cond, r3) ← rdCond r2
        let (cnt, r4) ← rdNat r3
        if cond = .condDWithin then
          if cnt ≠ 3 then .error ⟨.errParseBin, "Expected point and distance for DWithin"⟩
          else do
            let (x, r5) ← rdVar r4
            let (y, r6) ← rdVar r5
            let (d, r7) ← rdVar r6
            let e1 := c.q.entries.append (.leaf op (.qentry fieldName cond [.vtuple [x, y], d] false))
            decBody fuel r7 { c with q := { c.q with entries := e1 } }
        else do
          let (vals, r5) ← rdVars cnt r4
          let e1 := c.q.entries.append (.leaf op (.qentry fieldName cond vals false))
          decBody fuel r5 { c with q := { c.q with entries := e1 } }
      else if qtype = QueryBetweenFieldsCondition then do
        let (op, r1) ← rdOp r0
        let (firstField, r2) ← rdStr r1
        let (cond, r3) ← rdCond r2
        let (secondField, r4) ← rdStr r3
        let e1 := c.q.entries.append (.leaf op (.betweenFields firstField cond secondField))
        decBody fuel r4 { c with q := { c.q with entries := e1 } }
      else if qtype = QueryAlwaysFalseCondition then do
        let (op, r1) ← rdOp r0
        let e1 := c.q.entries.append (.leaf op .alwaysFalse)
        decBody fuel r1 { c with q := { c.q with entries := e1 } }
      else if qtype = QueryJoinCondition then do
        let (jt, r1) ← rdNat r0
        let (idx, r2) ← rdNat r1
        let e1 := c.q.entries.append
          (.leaf (if jt = JoinType.orInnerJoin.toNat then .opOr else .opAnd) (.joinEntry idx))
        decBody fuel r2 { c with hasJoinConditions := true, q := { c.q with entries := e1 } }
      else if qtype = QueryAggregation then do
        let (tn, r1) ← rdNat r0
        match AggType.fromNat tn with
        | none => .error ⟨.errParseBin, "Invalid aggregation type"⟩
        | some t => do
          let (fcnt, r2) ← rdNat r1
          let (fields, r3) ← rdStrs fcnt r2
          let (ae, r4) ← decAggLoop (r3.length + 1) ⟨t, fields, [], kDefaultLimit, kDefaultOffset⟩ r3
          decBody fuel r4 { c with q := { c.q with aggregations := c.q.aggregations ++ [ae] } }
      else if qtype = QueryDistinct then do
        let (fn, r1) ← rdStr r0
        if fn = "" then decBody fuel r1 c
        else
          let e1 := c.q.entries.append (.leaf .opAnd (.qentry fn .condAny [] true))
          decBody fuel r1 { c with q := { c.q with entries := e1 } }
      else if qtype = QuerySortIndex then do
        let (expr, r1) ← rdStr r0
        let (d, r2) ← rdNat r1
        let q1 := if expr ≠ "" then
            { c.q with sortingEntries := c.q.sortingEntries ++ [⟨expr, d ≠ 0⟩] }
          else c.q
        let (cnt, r3) ← rdNat r2
        if cnt ≠ 0 ∧ q1.sortingEntries.length ≠ 1 then
          .error ⟨.errParams, kForcedSortOrderMsg⟩
        else do
          let (vals, r4) ← rdVars cnt r3
          decBody fuel r4 { c with q := { q1 with forcedSortOrder := q1.forcedSortOrder ++ vals } }
      else if qtype = QueryJoinOn then do
        let (op, r1) ← rdOp r0
        let (cond, r2) ← rdCond r1
        let (lf, r3) ← rdStr r2
        let (rf, r4) ← rdStr r3
        decBody fuel r4 { c with joinEntriesOut := c.joinEntriesOut ++ [⟨op, cond, lf, rf⟩] }
      else if qtype = QueryDebugLevel then do
        let (lvl, r1) ← rdNat r0
        decBody fuel r1 { c with q := { c.q with debugLevel := lvl } }
      else if qtype = QueryStrictMode then do
        let (m, r1) ← rdNat r0
        match StrictMode.fromNat m with
        | none => .error ⟨.errParseBin, "Invalid strict mode"⟩
        | some sm => decBody fuel r1 { c with q := { c.q with strictMode := sm } }
      else if qtype = QueryLimit then do
        let (l, r1) ← rdNat r0
        decBody fuel r1 { c with q := { c.q with count := l } }
      else if qtype = QueryOffset then do
        let (o, r1) ← rdNat r0
        decBody fuel r1 { c with q := { c.q with start := o } }
      else if qtype = QueryReqTotal then do
        let (m, r1) ← rdNat r0
        match CalcTotalMode.fromNat m with
        | none => .error ⟨.errParseBin, "Invalid total mode"⟩
        | some cm => decBody fuel r1 { c with q := { c.q with calcTotal := cm } }
      else if qtype = QuerySelectFilter then do
        let (s, r1) ← rdStr r0
        decBody fuel r1 { c with q := { c.q with selectFilter := c.q.selectFilter ++ [s] } }
      else if qtype = QueryEqualPosition then do
        let (bpos, r1) ← rdNat r0
        let (fcnt, r2) ← rdNat r1
        let (fields, r3) ← rdStrs fcnt r2
        decBody fuel r3 { c with equalPositions := c.equalPositions ++ [(bpos, fields)] }
      else if qtype = QueryExplain then
        decBody fuel r0 { c with q := { c.q with explain := true } }
      else if qtype = QueryWithRank then
        decBody fuel r0 { c with q := { c.q with withRank := true } }
      else if qtype = QuerySelectFunction then do
        let (s, r1) ← rdStr r0
        decBody fuel r1 { c with q := { c.q with selectFunctions := c.q.selectFunctions ++ [s] } }
      else if qtype = QueryDropField then do
        let (f, r1) ← rdStr r0
        let q1 ← c.q.drop f
        decBody fuel r1 { c with q := q1 }
      else if qtype = QueryUpdateFieldV2 then do
        let (f, r1) ← rdStr r0
        let (isArray, r2) ← rdNat r1
        let (numValues, r3) ← rdNat r2
        let (he, vals, r4) ← rdExprVals numValues false [] r3
        let q1 ← c.q.set f ⟨vals, isArray ≠ 0⟩ he
        decBody fuel r4 { c with q := q1 }
      else if qtype = QueryUpdateField then do
        let (f, r1) ← rdStr r0
        let (numValues, r2) ← rdNat r1
        let (he, vals, r3) ← rdExprVals numValues false [] r2
        let q1 ← c.q.set f ⟨vals, numValues > 1⟩ he
        decBody fuel r3 { c with q := q1 }
      else if qtype = QueryUpdateObject then do
        let (f, r1) ← rdStr r0
        let (numValues, r2) ← rdNat r1
        let (isArray, r3) ← rdNat r2
        let (he, vals, r4) ← rdExprVals numValues false [] r3
        let q1 ← c.q.setObject f ⟨vals, isArray = 1⟩ he
        decBody fuel r4 { c with q := q1 }
      else if qtype = QueryOpenBracket then do
        let (op, r1) ← rdOp r0
        decBody fuel r1 { c with q := { c.q with entries := c.q.entries.openBracket op } }
      else if qtype = QueryCloseBracket then do
        let e1 ← c.q.entries.closeBracket
        decBody fuel r0 { c with q := { c.q with entries := e1 } }
      else if qtype = QueryEnd then
        .ok (c, r0)
      else .error ⟨.errParseBin, "Unknown type while parsing binary buffer"⟩
termination_by structural fuel ts c => fuel

/-- Query::deserialize including the equal-position attachment after the
loop (query.cc:271-277). The spec makes an unclosed bracket a decoding
error. Returns the query fields, the collected join-on entries, the shared
has-join-conditions flag, and the rest of the stream. -/
def decDeserialize (ts : List Atom) (base0 : QBase) (hjc : Bool) :
    Except Err (QBase × List RQueryJoinEntry × Bool × List Atom) := do
  let (c, rest) ← decBody (ts.length + 1) ts ⟨base0, [], hjc, []⟩
  if !c.q.entries.openCtx.isEmpty then .error ⟨.errParseBin, "Open bracket is not closed"⟩
  else do
    let e1 ← attachEqPositions c.q.entries c.equalPositions
    .ok ({ c.q with entries := e1 }, c.joinEntriesOut, c.hasJoinConditions, rest)

/-- Replace the last merge query (mergeQueries_.back()). -/
def updateLastMerge (q : RQuery) (f : RQuery → RQuery) : RQuery :=
  match q with
  | .mk b jt je jqs mqs =>
    match mqs.reverse with
    | [] => .mk b jt je jqs mqs
    | m :: rev => .mk b jt je jqs ((f m :: rev).reverse)

/-- Append one decoded joined query q1 of type jt that is neither a left
join nor announced by a decoded join condition (query.cc:432-439): a
JoinQueryEntry leaf indexed by the root's joinQueries_ count is appended
to the root's entries (the unqualified members at query.cc:435-436 are the
root's, even when a merge has been seen); q1 is then pushed to the join
list of the last merge query if one has been seen, else of the root. -/
def attachJoin (q : RQuery) (nested : Bool) (jt : JoinType) (q1 : RQuery) : RQuery :=
  let push := fun (tgt : RQuery) =>
    match tgt with
    | .mk b tjt tje jqs mqs => RQuery.mk b tjt tje (jqs ++ [q1]) mqs
  match q with
  | .mk b tjt tje jqs mqs =>
    let e1 := b.entries.append
      (.leaf (if jt = .orInnerJoin then .opOr else .opAnd) (.joinEntry jqs.length))
    if nested then updateLastMerge (RQuery.mk { b with entries := e1 } tjt tje jqs mqs) push
    else RQuery.mk { b with entries := e1 } tjt tje (jqs ++ [q1]) mqs

/-- Append one decoded joined query without adding a join-entry leaf. -/
def attachJoinPlain (q : RQuery) (nested : Bool) (q1 : RQuery) : RQuery :=
  let push := fun (tgt : RQuery) =>
    match tgt with
    | .mk b tjt tje jqs mqs => RQuery.mk b tjt tje (jqs ++ [q1]) mqs
  if nested then updateLastMerge q push else push q

/-- The loop over joined and merge queries after the root body
(query.cc:421-440): read the join type and namespace, decode the body,
overwrite the joined query's debug level and strict mode with the root's,
then attach. -/
def decJoins : Nat → List Atom → Nat → StrictMode → Bool → Bool → RQuery →
    Except Err RQuery
  | 0, _, _, _, _, _, _ => .error ⟨.errLogic, "decoder fuel exhausted"⟩
  | fuel + 1, ts, rootDebug, rootStrict, hjc, nested, q =>
    match ts with
    | [] => .ok q
    | _ => do
      let (jtn, r0) ← rdNat ts
      match JoinType.fromNat jtn with
      | none => .error ⟨.errParseBin, "Invalid join type"⟩
      | some jt => do
        let (nsj, r1) ← rdStr r0
        let (jbase, jje, hjc2, r2) ← decDeserialize r1 { namespace_ := nsj } hjc
        let jbase := { jbase with debugLevel := rootDebug, strictMode := rootStrict }
        let q1 : RQuery := .mk jbase jt jje [] []
        if jt = .merge then
          decJoins fuel r2 rootDebug rootStrict hjc2 true
            (match q with | .mk b tjt tje jqs mqs => .mk b tjt tje jqs (mqs ++ [q1]))
        else if jt ≠ .leftJoin ∧ ¬hjc2 then
          decJoins fuel r2 rootDebug rootStrict hjc2 nested (attachJoin q nested jt q1)
        else
          decJoins fuel r2 rootDebug rootStrict hjc2 nested (attachJoinPlain q nested q1)
termination_by structural fuel ts rd rs hjc nested q => fuel

/-- Query::Deserialize: namespace, root body, then joined and merge
queries until the stream ends. -/
def decQuery (ts : List Atom) : Except Err RQuery := do
  let (ns, r0) ← rdStr ts
  let (base, je, hjc, r1) ← decDeserialize r0 { namespace_ := ns } false
  decJoins (r1.length + 1) r1 base.debugLevel base.strictMode hjc false (.mk base .leftJoin je [] [])

/-! ### Round-trip support: well-formedness and the decoded image -/

mutual

/-- Erase every bracket's equal-position groups (the decoder builds
brackets empty and attaches the groups after the body loop). -/
def eraseEqNode : QNode → QNode
  | .leaf op a => .leaf op a
  | .bracket op _ ch => .bracket op [] (eraseEqNodes ch)

def eraseEqNodes : List QNode → List QNode
  | [] => []
  | n :: ns => eraseEqNode n :: eraseEqNodes ns

end

mutual

/-- Does the tree contain a JoinQueryEntry leaf (what sets the decoder's
hasJoinConditions flag)? -/
def hasJoinCondNode : QNode → Bool
  | .leaf _ (.joinEntry _) => true
  | .leaf _ _ => false
  | .bracket _ _ ch => hasJoinCondNodes ch

def hasJoinCondNodes : List QNode → Bool
  | [] => false
  | n :: ns => hasJoinCondNode n || hasJoinCondNodes ns

end

mutual

/-- Well-formedness of one tree cell for the codec round trip: distinct
entries are in the canonical shape the decoder rebuilds (and-op, any-cond,
no values, non-empty field); DWithin entries carry exactly a two-element
point tuple and a distance; join entries carry an and/or operation (the
wire format has no spot for not). -/
def wfNode : QNode → Bool
  | .leaf op (.qentry f cond vals dist) =>
    (if dist then op == .opAnd && cond == .condAny && vals.isEmpty && !(f == "")
     else if cond == .condDWithin then
       match vals with
       | [.vtuple [_, _], _] => true
       | _ => false
     else true)
  | .leaf _ (.betweenFields _ _ _) => true
  | .leaf op (.joinEntry _) => !(op == .opNot)
  | .leaf _ .alwaysFalse => true
  | .bracket _ _ ch => wfNodes ch

def wfNodes : List QNode → Bool
  | [] => true
  | n :: ns => wfNode n && wfNodes ns

end

/-- A serialized query whose body carries a sorting entry with a forced
sort order followed by a second sorting entry with no forced values
(a QuerySortIndex record with cnt = 0). -/
def twoSortStream : List Atom :=
  [.str "ns", .nat QuerySortIndex, .str "a", .nat 0, .nat 1, .var (.vstring "v"),
   .nat QuerySortIndex, .str "b", .nat 1, .nat 0, .nat QueryEnd]

/-- A serialized query whose body carries a sum aggregation followed by a
select filter. -/
def aggFilterStream : List Atom :=
  [.str "ns", .nat QueryAggregation, .nat AggType.aggSum.toNat, .nat 1, .str "f",
   .nat QuerySelectFilter, .str "g", .nat QueryEnd]

/-- Check on the decode of twoSortStream: it succeeds, yields two sorting
entries next to a non-empty forced sort order, and so breaks the
forced-sort invariant. -/
def twoSortDecodeCheck : Bool :=
  match decQuery twoSortStream with
  | .ok q =>
    q.base.sortingEntries.length == 2 && !q.base.forcedSortOrder.isEmpty &&
    !(decide (sortInvariant q.base))
  | .error _ => false

/-- Check on the decode of aggFilterStream: it succeeds, yields a sum
aggregation coexisting with a select filter, and so breaks the
aggregation/select-filter invariant. -/
def aggFilterDecodeCheck : Bool :=
  match decQuery aggFilterStream with
  | .ok q =>
    q.base.aggregations.length == 1 && !q.base.selectFilter.isEmpty &&
    !(decide (aggInvariant q.base))
  | .error _ => false

mutual

/-- The (bracket index, group) pairs the equal-position walk of
Query::Serialize emits for one cell at flat index i, with the next flat
index. -/
def eqPairsNode : QNode → Nat → List (Nat × List String) × Nat
  | .leaf _ _, i => ([], i + 1)
  | .bracket _ eqp ch, i =>
    let sub := eqPairsNodes ch (i + 1)
    (eqp.map (fun ep => (i + 1, ep)) ++ sub.1, sub.2)

def eqPairsNodes : List QNode → Nat → List (Nat × List String) × Nat
  | [], i => ([], i)
  | n :: ns, i =>
    let a := eqPairsNode n i
    let b := eqPairsNodes ns a.2
    (a.1 ++ b.1, b.2)

end

/-- C2: whenever the evaluator stands at a division operator and the
right-hand operand (one full recursive multiplicative parse, exactly as
performMultiplicationAndDivision computes it) evaluates to zero, evaluation
fails with an error of kind logic whose message contains "Division by zero";
in particular the expression 10 / (2 - 2) produces this error. -/
theorem evaluate_division_by_zero (env : EvalEnv) (fuel : Nat) (left : Rat)
    (c c1 : ECtx) (rest : List Tok)
    (htok : c.toks = .sym "/" :: rest)
    (hrhs : performMultiplicationAndDivision env fuel
      { c with toks := rest, state := .stateMultiplyAndDivide } = .ok (0, c1)) :
    mulDivLoop env (fuel + 1) left c = .error ⟨.errLogic, kDivisionByZeroMsg⟩ ∧
    Evaluate emptyEnv 100 divByZeroToks = .error ⟨.errLogic, kDivisionByZeroMsg⟩ ∧
    containsSub kDivisionByZeroMsg "Division by zero" := by
  refine ⟨?_, by decide, "", "!", by decide⟩
  obtain ⟨toks, arr, st⟩ := c
  simp only at htok
  subst htok
  simp [mulDivLoop, hrhs, Except.bind, Bind.bind]

/-- C2 witness: the hypotheses hold at the concrete split of 10 / (2 - 2). -/
theorem evaluate_division_by_zero_witness :
    mulDivLoop emptyEnv 51 10
      ⟨[.sym "/", .sym "(", .num 2, .sym "-", .num 2, .sym ")"], [], .stateNone⟩ =
      .error ⟨.errLogic, kDivisionByZeroMsg⟩ :=
  (evaluate_division_by_zero emptyEnv 50 10
    ⟨[.sym "/", .sym "(", .num 2, .sym "-", .num 2, .sym ")"], [], .stateNone⟩
    ⟨[], [], .stateSumAndSubtract⟩ [.sym "(", .num 2, .sym "-", .num 2, .sym ")"]
    (by decide) (by decide)).1

/-- C3 counterexample: the claim says 8 / 4 / 2 evaluates left-to-right to
(8/4)/2 = 1; the code recurses on the right operand of / and yields
8 / (4 / 2) = 4 ≠ 1. -/
theorem eval_mul_div_not_left_assoc :
    Evaluate emptyEnv 100 [.num 8, .sym "/", .num 4, .sym "/", .num 2] =
      .ok ⟨[.vdouble 4], false⟩ ∧ (4 : Rat) ≠ 1 := by
  constructor
  · decide
  · decide

/-- C3 amended: + and - at equal precedence evaluate left-to-right
(10 - 2 + 3 = 11), while the right operand of * and / is parsed by a full
recursive call, so equal-precedence chains of * and / associate to the
right: 8 / 4 / 2 = 8 / (4 / 2) = 4, the same value as the explicitly
parenthesized 8 / (4 / 2). -/
theorem eval_equal_precedence_order :
    Evaluate emptyEnv 100 [.num 10, .sym "-", .num 2, .sym "+", .num 3] =
      .ok ⟨[.vdouble 11], false⟩ ∧
    Evaluate emptyEnv 100 [.num 8, .sym "/", .num 4, .sym "/", .num 2] =
      .ok ⟨[.vdouble 4], false⟩ ∧
    Evaluate emptyEnv 100 [.num 8, .sym "/", .num 4, .sym "/", .num 2] =
      Evaluate emptyEnv 100 [.num 8, .sym "/", .sym "(", .num 4, .sym "/", .num 2, .sym ")"] := by
  refine ⟨by decide, by decide, by decide⟩

/-- C4: Evaluate runs the descent and then, when the array accumulator ends
non-empty, returns the accumulated values marked as an array (discarding the
scalar); otherwise it returns the scalar wrapped in a single-element
(unmarked) VariantArray. -/
theorem evaluate_array_accumulator (env : EvalEnv) (fuel : Nat) (toks : List Tok)
    (val : Rat) (c1 : ECtx)
    (h : performSumAndSubtracting env fuel ⟨toks, [], .stateNone⟩ = .ok (val, c1)) :
    Evaluate env fuel toks =
      .ok (if c1.arr.isEmpty then ⟨[.vdouble val], false⟩ else ⟨c1.arr, true⟩) := by
  unfold Evaluate
  rw [h]
  show (if c1.arr.isEmpty then (Except.ok ⟨[.vdouble val], false⟩ : Except Err VArr)
        else .ok (VArr.markArray ⟨c1.arr, false⟩)) = _
  by_cases he : c1.arr.isEmpty
  · simp [he]
  · simp [he, VArr.markArray]

/-- C4 witness: the array literal [1, 2] leaves a non-empty accumulator, so
the marked array is returned. -/
theorem evaluate_array_accumulator_witness :
    Evaluate emptyEnv 100 [.sym "[", .num 1, .sym ",", .num 2, .sym "]"] =
      .ok ⟨[.vdouble 1, .vdouble 2], true⟩ :=
  evaluate_array_accumulator emptyEnv 100 [.sym "[", .num 1, .sym ",", .num 2, .sym "]"]
    0 ⟨[], [.vdouble 1, .vdouble 2], .stateNone⟩ (by decide)

/-- C8 counterexample: the claim says copy-assigning from a non-null v
increments the shared refcount by one. When the destination is a second
holder of the very same cell (refcount 2), operator= first releases the
destination and then re-adds the reference: the refcount stays 2, it does
not become 3. -/
theorem payload_copy_assign_same_cell_counterexample :
    (pvCopyAssign (fun _ => 2) (some 0) (some 0)).1 0 = 2 ∧
    (pvCopyAssign (fun _ => 2) (some 0) (some 0)).2 = some 0 ∧
    ¬ (pvCopyAssign (fun _ => 2) (some 0) (some 0)).1 0 = 2 + 1 := by
  refine ⟨by decide, by decide, by decide⟩

/-- C8 amended: for a PayloadValue holding cell p, copy construction and
copy assignment into a destination that does not already hold p increment
the refcount of p by one and make both holders reference p; move
construction and move assignment into such a destination transfer the
handle without changing the refcount of p and leave the source null.
(When the destination already holds the same cell, the destination release
inside assignment cancels the accounting, as the counterexample shows.) -/
theorem payload_copy_move_semantics (h : PvHeap) (p : Nat) (dst : PV)
    (hdst : dst ≠ some p) :
    (pvCopyCtor h (some p)).1 p = h p + 1 ∧
    (pvCopyCtor h (some p)).2 = some p ∧
    (pvCopyAssign h dst (some p)).1 p = h p + 1 ∧
    (pvCopyAssign h dst (some p)).2 = some p ∧
    (pvMoveCtor h (some p)).1 p = h p ∧
    (pvMoveCtor h (some p)).2.1 = some p ∧
    (pvMoveCtor h (some p)).2.2 = none ∧
    (pvMoveAssign h dst (some p)).1 p = h p ∧
    (pvMoveAssign h dst (some p)).2.1 = some p ∧
    (pvMoveAssign h dst (some p)).2.2 = none := by
  match dst with
  | none =>
    simp [pvCopyCtor, pvCopyAssign, pvMoveCtor, pvMoveAssign, pvBump, pvRelease]
  | some q =>
    have hq : p ≠ q := fun he => hdst (by rw [he])
    simp [pvCopyCtor, pvCopyAssign, pvMoveCtor, pvMoveAssign, pvBump, pvRelease, hq]

/-- C8 witness: the amended semantics at a concrete singly-referenced cell
and a null destination. -/
theorem payload_copy_move_semantics_witness :
    (pvCopyCtor (fun _ => 1) (some 0)).1 0 = (fun _ => (1 : Nat)) 0 + 1 ∧
    (pvCopyCtor (fun _ => 1) (some 0)).2 = some 0 ∧
    (pvCopyAssign (fun _ => 1) none (some 0)).1 0 = (fun _ => (1 : Nat)) 0 + 1 ∧
    (pvCopyAssign (fun _ => 1) none (some 0)).2 = some 0 ∧
    (pvMoveCtor (fun _ => 1) (some 0)).1 0 = (fun _ => (1 : Nat)) 0 ∧
    (pvMoveCtor (fun _ => 1) (some 0)).2.1 = some 0 ∧
    (pvMoveCtor (fun _ => 1) (some 0)).2.2 = none ∧
    (pvMoveAssign (fun _ => 1) none (some 0)).1 0 = (fun _ => (1 : Nat)) 0 ∧
    (pvMoveAssign (fun _ => 1) none (some 0)).2.1 = some 0 ∧
    (pvMoveAssign (fun _ => 1) none (some 0)).2.2 = none :=
  payload_copy_move_semantics (fun _ => 1) 0 none (by decide)

/-- C7 counterexample: at the cap the select call fails with
err_too_many_queries, whose kind is logic (with message "Too many parallel
queries"), not a dedicated too-many-parallel-queries kind. -/
theorem select_at_cap_kind_counterexample :
    (reindexer_select ⟨.errOK, ""⟩ kMaxConcurentQueries).1 =
      ⟨.errLogic, "Too many parallel queries", 0⟩ ∧
    ErrKind.errLogic ≠ ErrKind.errTooManyParallelQueries := by
  refine ⟨by decide, by decide⟩

/-- C7 amended: when the live result count is at kMaxConcurentQueries,
acquiring a builder returns null and the select call fails with
err_too_many_queries — kind logic, message "Too many parallel queries" —
with results_ptr = 0 and the live count unchanged; after one buffer is
freed, the next select (with an ok engine result) succeeds with a non-null
results_ptr, bringing the live count back to the cap. -/
theorem select_pool_cap (res : Err) (live : Nat) (hok : res.kind = .errOK)
    (hcap : live = kMaxConcurentQueries) :
    poolGet live = none ∧
    (reindexer_select res live).1 = ⟨.errLogic, "Too many parallel queries", 0⟩ ∧
    (reindexer_select res live).2 = live ∧
    (reindexer_select res (reindexer_free_buffer live)).1.errKind = .errOK ∧
    (reindexer_select res (reindexer_free_buffer live)).1.resultsPtr ≠ 0 ∧
    (reindexer_select res (reindexer_free_buffer live)).2 = live := by
  subst hcap
  have h1 : poolGet kMaxConcurentQueries = none := by decide
  have h2 : poolGet (reindexer_free_buffer kMaxConcurentQueries) = some () := by decide
  have hsel : reindexer_select res kMaxConcurentQueries =
      (⟨.errLogic, "Too many parallel queries", 0⟩, kMaxConcurentQueries) := by
    unfold reindexer_select
    rw [h1]
    rfl
  have hsel2 : reindexer_select res (reindexer_free_buffer kMaxConcurentQueries) =
      (⟨.errOK, "", 1⟩, kMaxConcurentQueries) := by
    unfold reindexer_select
    rw [h2]
    simp only [hok, if_true, reduceIte, ret2c]
    refine Prod.ext ?_ (by decide)
    simp [ret2c]
  refine ⟨h1, ?_, ?_, ?_, ?_, ?_⟩ <;> simp [hsel, hsel2]

/-- C7 witness: the amended behaviour at the cap with an ok engine result. -/
theorem select_pool_cap_witness :
    poolGet kMaxConcurentQueries = none ∧
    (reindexer_select ⟨.errOK, ""⟩ kMaxConcurentQueries).1 =
      ⟨.errLogic, "Too many parallel queries", 0⟩ ∧
    (reindexer_select ⟨.errOK, ""⟩ kMaxConcurentQueries).2 = kMaxConcurentQueries ∧
    (reindexer_select ⟨.errOK, ""⟩ (reindexer_free_buffer kMaxConcurentQueries)).1.errKind = .errOK ∧
    (reindexer_select ⟨.errOK, ""⟩ (reindexer_free_buffer kMaxConcurentQueries)).1.resultsPtr ≠ 0 ∧
    (reindexer_select ⟨.errOK, ""⟩ (reindexer_free_buffer kMaxConcurentQueries)).2 = kMaxConcurentQueries :=
  select_pool_cap ⟨.errOK, ""⟩ kMaxConcurentQueries (by decide) (by decide)

/-- C9: the WordTypo record (word id plus compact position vector) fits in
16 bytes, the bound the static_assert in dataholder.h enforces at compile
time for the typo-map entries. -/
theorem wordTypo_size_le_16 : sizeofWordTypo ≤ 16 := by decide

theorem qnodeEq_refl (n : QNode) : qnodeEq n n = true := by
  induction n using QNode.rec (motive_2 := fun l => qnodesEq l l = true) with
  | leaf op atom => simp [qnodeEq]
  | bracket op eqp ch ih => simp [qnodeEq, ih]
  | nil => simp [qnodesEq]
  | cons h t ih1 ih2 => simp [qnodesEq, ih1, ih2]

theorem qnodesEq_refl (ns : List QNode) : qnodesEq ns ns = true := by
  induction ns with
  | nil => simp [qnodesEq]
  | cons h t ih => simp [qnodesEq, qnodeEq_refl, ih]

theorem rvariant_beq_refl (v : RVariant) : RVariant.beq v v = true :=
  (RVariant.beq_iff v v).mpr rfl

theorem relaxCompareEq_refl (v : RVariant) : relaxCompareEq v v = true := by
  cases v <;> simp [relaxCompareEq, rvariant_beq_refl]

theorem relaxEqList_refl (l : List RVariant) : relaxEqList l l = true := by
  induction l with
  | nil => simp [relaxEqList]
  | cons h t ih => simp [relaxEqList, relaxCompareEq_refl, ih]

theorem updateFieldsEq_refl (l : List RUpdateEntry) : updateFieldsEq l l = true := by
  induction l with
  | nil => simp [updateFieldsEq]
  | cons h t ih => simp [updateFieldsEq, updateEntryEq, ih]

theorem qBaseEq_ignores (b : QBase) (e w : Bool) (t : QueryType) :
    qBaseEq b { b with explain := e, withRank := w, qtype := t } = true := by
  simp [qBaseEq, qnodesEq_refl, relaxEqList_refl, updateFieldsEq_refl]

theorem qBaseEq_refl (b : QBase) : qBaseEq b b = true :=
  qBaseEq_ignores b b.explain b.withRank b.qtype

theorem rqueryEq_refl (q : RQuery) : rqueryEq q q = true := by
  induction q using RQuery.rec (motive_2 := fun l => joinedListEq l l = true) with
  | mk b jt je js ms ih1 ih2 => simp [rqueryEq, qBaseEq_refl, ih1, ih2]
  | nil => simp [joinedListEq]
  | cons h t ih1 ih2 => simp [joinedListEq, joinedQueryEq, ih1, ih2]

theorem joinedListEq_refl (l : List RQuery) : joinedListEq l l = true := by
  induction l with
  | nil => simp [joinedListEq]
  | cons h t ih => simp [joinedListEq, joinedQueryEq, rqueryEq_refl, ih]

/-- C5 counterexample: the invariant "a forced sort order is non-empty only
with exactly one sorting entry" is not preserved: binary deserialization of
twoSortStream succeeds (no params error) and yields two sorting entries
beside a non-empty forced sort order, and likewise the plain Sort builder
appends a second sorting entry to a query holding a forced sort order —
reachable through Sort with a forced order — without any error. -/
theorem sort_forced_invariant_counterexample :
    twoSortDecodeCheck = true ∧
    QBase.sortForced { namespace_ := "ns" } "a" false [.vstring "v"] =
      .ok { namespace_ := "ns", sortingEntries := [⟨"a", false⟩], forcedSortOrder := [.vstring "v"] } ∧
    ¬ sortInvariant (QBase.sort
      { namespace_ := "ns", sortingEntries := [⟨"a", false⟩], forcedSortOrder := [.vstring "v"] }
      "b" true) := by
  refine ⟨by decide, by rfl, by decide⟩

/-- C5 amended: the operations that install a forced sort order do guard —
the Sort builder taking a forced order throws a params error when sorting
entries already exist, and (started without a forced order) it preserves
the invariant; the QuerySortIndex deserialize case throws a params error
when a record carries forced values (cnt ≠ 0) while the sorting-entry
count differs from one. But operations adding a sorting entry without
forced values (the plain Sort builder, a cnt = 0 record) perform no check,
so the invariant is not preserved by every operation. -/
theorem sort_forced_order_guards (q : QBase) (s : String) (d : Bool)
    (forced : List RVariant) (fuel : Nat) (c : DecCtx) (dn cnt : Nat) (rest : List Atom) :
    (q.sortingEntries ≠ [] → forced ≠ [] →
      QBase.sortForced q s d forced = .error ⟨.errParams, kForcedSortOrderMsg⟩) ∧
    (q.forcedSortOrder = [] → ∀ q2, QBase.sortForced q s d forced = .ok q2 → sortInvariant q2) ∧
    (s ≠ "" → cnt ≠ 0 → c.q.sortingEntries ≠ [] →
      decBody (fuel + 1) (.nat QuerySortIndex :: .str s :: .nat dn :: .nat cnt :: rest) c =
        .error ⟨.errParams, kForcedSortOrderMsg⟩) := by
  refine ⟨?_, ?_, ?_⟩
  · intro h1 h2
    unfold QBase.sortForced
    rw [if_pos ⟨h1, h2⟩]
  · intro hf q2 hok
    unfold QBase.sortForced at hok
    by_cases hg : q.sortingEntries ≠ [] ∧ forced ≠ []
    · rw [if_pos hg] at hok
      exact absurd hok (by simp)
    · rw [if_neg hg] at hok
      have hq2 : q2 = { q with sortingEntries := q.sortingEntries ++ [⟨s, d⟩], forcedSortOrder := q.forcedSortOrder ++ forced } := by
        cases hok
        rfl
      subst hq2
      intro hforder
      simp only [hf, List.nil_append] at hforder ⊢
      push_neg at hg
      rcases List.eq_nil_or_concat q.sortingEntries with he | ⟨_, _, hcons⟩
      · simp [he]
      · exact absurd (hg (by simp [hcons])) hforder
  · intro hs hcnt hne
    have hlen : ¬ (c.q.sortingEntries ++ [(⟨s, dn ≠ 0⟩ : RSortingEntry)]).length = 1 := by
      rcases List.eq_nil_or_concat c.q.sortingEntries with he | ⟨l2, x, hcons⟩
      · exact absurd he hne
      · simp [hcons]
    simp only [decBody, rdNat, rdStr, bind, Except.bind]
    rw [if_neg (by decide), if_neg (by decide), if_neg (by decide), if_neg (by decide),
      if_neg (by decide), if_neg (by decide), if_pos (by decide)]
    simp only [ne_eq, hs, not_false_eq_true, if_true, ite_true]
    rw [if_pos ⟨hcnt, hlen⟩]

/-- C5 witness: the guarded builder rejects a forced order arriving second. -/
theorem sort_forced_order_guards_witness :
    QBase.sortForced { namespace_ := "q0", sortingEntries := [⟨"a", false⟩] } "b" true [.vint 1] =
      .error ⟨.errParams, kForcedSortOrderMsg⟩ :=
  (sort_forced_order_guards { namespace_ := "q0", sortingEntries := [⟨"a", false⟩] } "b" true
    [.vint 1] 0 ⟨{ namespace_ := "" }, [], false, []⟩ 0 0 []).1 (by decide) (by decide)

/-- C6 counterexample: binary deserialization performs no conflict check:
decoding a sum aggregation followed by a select filter succeeds and yields
a query where a non-distinct aggregation coexists with a select filter. -/
theorem agg_select_filter_deserialize_counterexample : aggFilterDecodeCheck = true := by
  decide

/-- C6 amended: the builder operations preserve the invariant that
non-empty aggregations and a non-empty select filter coexist only when all
aggregations are distinct — Aggregate and Select throw a conflict error
when their CanAdd checks fail — but binary deserialization performs no such
check and can produce a violating query. -/
theorem aggregation_select_filter_guards (q : QBase) (type : AggType)
    (fields : List String) (sort : List RSortingEntry) (limit offset : Nat)
    (l : List String) :
    (¬ q.canAddAggregation type = true →
      q.aggregate type fields sort limit offset =
        .error ⟨.errConflict, kAggregationWithSelectFieldsMsgErr⟩) ∧
    (aggInvariant q → ∀ q2, q.aggregate type fields sort limit offset = .ok q2 →
      aggInvariant q2) ∧
    (¬ q.canAddSelectFilter = true →
      q.select l = .error ⟨.errConflict, kAggregationWithSelectFieldsMsgErr⟩) ∧
    (aggInvariant q → ∀ q2, q.select l = .ok q2 → aggInvariant q2) := by
  refine ⟨?_, ?_, ?_, ?_⟩
  · intro h
    unfold QBase.aggregate
    simp [h]
  · intro hinv q2 hok
    unfold QBase.aggregate at hok
    by_cases hc : q.canAddAggregation type = true
    · rw [if_neg (by simp [hc])] at hok
      have hq2 : q2 = { q with aggregations := q.aggregations ++ [⟨type, fields, sort, limit, offset⟩] } := by
        cases hok
        rfl
      subst hq2
      intro _ hfil a ha
      simp only [List.mem_append, List.mem_singleton] at ha
      rcases ha with ha | rfl
      · exact hinv (by intro hnil; simp [hnil] at ha) hfil a ha
      · unfold QBase.canAddAggregation at hc
        simp only [Bool.or_eq_true, beq_iff_eq, List.isEmpty_iff] at hc
        rcases hc with hc | hc
        · exact hc
        · exact absurd hc hfil
    · rw [if_pos (by simp [hc])] at hok
      exact absurd hok (by simp)
  · intro h
    unfold QBase.select
    simp [h]
  · intro hinv q2 hok
    unfold QBase.select at hok
    by_cases hc : q.canAddSelectFilter = true
    · rw [if_neg (by simp [hc])] at hok
      have hq2 : q2 = { q with selectFilter := l ++ q.selectFilter } := by
        cases hok
        rfl
      subst hq2
      intro hagg _ a ha
      unfold QBase.canAddSelectFilter at hc
      simp only at hagg ha
      match hm : q.aggregations with
      | [] => simp [hm] at hagg
      | [x] =>
        rw [hm] at hc ha
        simp only [beq_iff_eq] at hc
        simp only [List.mem_singleton] at ha
        rw [ha]
        exact hc
      | x :: y :: zs => rw [hm] at hc; simp at hc
    · rw [if_pos (by simp [hc])] at hok
      exact absurd hok (by simp)

/-- C6 witness: Aggregate of a sum over a query holding a select filter
fails with the conflict error. -/
theorem aggregation_select_filter_guards_witness :
    QBase.aggregate { namespace_ := "n", selectFilter := ["x"] } .aggSum ["f"] [] kDefaultLimit kDefaultOffset =
      .error ⟨.errConflict, kAggregationWithSelectFieldsMsgErr⟩ :=
  (aggregation_select_filter_guards { namespace_ := "n", selectFilter := ["x"] } .aggSum
    ["f"] [] kDefaultLimit kDefaultOffset []).1 (by decide)

/-- C10: Query::operator== does not compare explain_, withRank_ or type_:
a query and its copy with those three fields overwritten by arbitrary
values compare equal. -/
theorem query_eq_ignores_explain_rank_type (q : RQuery) (e w : Bool) (t : QueryType) :
    rqueryEq q (match q with
      | .mk b jt je js ms =>
        RQuery.mk { b with explain := e, withRank := w, qtype := t } jt je js ms) = true := by
  match q with
  | .mk b jt je js ms =>
    simp [rqueryEq, qBaseEq_ignores, joinedListEq_refl]

theorem encEqPosNode_snd (n : QNode) : ∀ i, (encEqPosNode n i).2 = i + qnodeSize n := by
  induction n using QNode.rec
    (motive_2 := fun ns => ∀ i, (encEqPosNodes ns i).2 = i + qnodesSize ns) with
  | leaf op atom => intro i; simp [encEqPosNode, qnodeSize]
  | bracket op eqp ch ih =>
    intro i
    simp only [encEqPosNode, qnodeSize]
    rw [ih]
    omega
  | nil => rename_i i; simp [encEqPosNodes, qnodesSize]
  | cons n ns ihn ihns =>
    rename_i i
    simp only [encEqPosNodes, qnodesSize]
    rw [ihns, ihn]
    omega

theorem encEqPosNodes_snd (ns : List QNode) : ∀ i,
    (encEqPosNodes ns i).2 = i + qnodesSize ns := by
  induction ns with
  | nil => intro i; simp [encEqPosNodes, qnodesSize]
  | cons n ns ih =>
    intro i
    simp only [encEqPosNodes, qnodesSize]
    rw [ih, encEqPosNode_snd]
    omega

theorem eqPairsNode_snd (n : QNode) : ∀ i, (eqPairsNode n i).2 = i + qnodeSize n := by
  induction n using QNode.rec
    (motive_2 := fun ns => ∀ i, (eqPairsNodes ns i).2 = i + qnodesSize ns) with
  | leaf op atom => intro i; simp [eqPairsNode, qnodeSize]
  | bracket op eqp ch ih =>
    intro i
    simp only [eqPairsNode, qnodeSize]
    rw [ih]
    omega
  | nil => rename_i i; simp [eqPairsNodes, qnodesSize]
  | cons n ns ihn ihns =>
    rename_i i
    simp only [eqPairsNodes, qnodesSize]
    rw [ihns, ihn]
    omega

theorem eqPairsNodes_snd (ns : List QNode) : ∀ i,
    (eqPairsNodes ns i).2 = i + qnodesSize ns := by
  induction ns with
  | nil => intro i; simp [eqPairsNodes, qnodesSize]
  | cons n ns ih =>
    intro i
    simp only [eqPairsNodes, qnodesSize]
    rw [ih, eqPairsNode_snd]
    omega

end Reindexer
